import Mathlib

/-!
Verification of the M×N sliding-puzzle core of this repository.

Source files:
 * run.cpp      — solvability oracle (`sum_of_reverse_number`, `can_solve`) and
                  parity repair (`reshuffle`).
 * autoMxN.cpp  — constructive solver (`auto_change`, `append`, `move_h`,
                  `move_v`, `move`, `solve_1x2`, `solve_2x1`, `autosolve`).

The primitives `find` and `change` live in `my_function.h`, which is not part of
the provided sources; they are modelled from the spec (§4.1 `locate`, §4.2
`move(direction)`).

Boards are embedded as `List Int` of length M·N in row-major order, holding the
values 1..M·N−1 once each plus the blank `-1` (the data-model invariant).  The
C++ `while` loops are embedded with an explicit fuel parameter; running out of
fuel, like a violated move precondition, yields `none`.
-/

namespace Puzzle

/-- The canonical solved board: cell k holds value k+1, last cell the blank. -/
def solvedList (M N : Nat) : List Int :=
  (List.map (fun k : Nat => (k : Int) + 1) (List.range (M * N - 1))) ++ [-1]

/-- Linear scan for the first cell holding value `v`.  Modelled from the spec:
my_function.h's `find(M, N, puzzle, v)` is the spec's `locate(value) → cell
index` (§4.1), a linear scan over the M·N cells; the board list has length M·N,
and an absent value (`NotFound`, an invariant violation) is mapped to the list
length. -/
def find (p : List Int) (v : Int) : Nat :=
  p.findIdx (fun x => x == v)

/-- Exchange the contents of cells `i` and `j`. -/
def swapCells (p : List Int) (i j : Nat) : List Int :=
  (p.set i (p.getD j 0)).set j (p.getD i 0)

/-- The primitive mover.  Modelled from the spec: my_function.h's
`change(M, N, puzzle, c)` is the spec's `move(direction)` (§4.2): with the blank
at row r, col c, `W` (UP) requires r>0 and swaps the blank with the cell above,
`S` (DOWN) requires r<M−1, `A` (LEFT) requires c>0, `D` (RIGHT) requires c<N−1;
a violated precondition is the fatal `OutOfBounds`, modelled as `none`. -/
def change (M N : Nat) (p : List Int) (c : Char) : Option (List Int) :=
  let pos := find p (-1)
  let r := pos / N
  let col := pos % N
  if c = 'W' then
    if 0 < r then some (swapCells p pos (pos - N)) else none
  else if c = 'S' then
    if r < M - 1 then some (swapCells p pos (pos + N)) else none
  else if c = 'A' then
    if 0 < col then some (swapCells p pos (pos - 1)) else none
  else if c = 'D' then
    if col < N - 1 then some (swapCells p pos (pos + 1)) else none
  else none

/-- Apply a sequence of primitive moves in order (the replay operation of the
spec's move-log round-trip property). -/
def applyMoves (M N : Nat) (p : List Int) (s : List Char) : Option (List Int) :=
  s.foldlM (change M N) p

/-- Number of inversion partners of `x` among the later cells `ys`: pairs where
both cells are non-blank and the later value is smaller (run.cpp's inner-loop
condition `puzzle[i] > puzzle[j]`). -/
def invPairs (x : Int) (ys : List Int) : Nat :=
  if x = -1 then 0 else ys.countP (fun y => !(y == -1) && decide (y < x))

/-- The inversion count among non-blank cells, pairwise over the row-major
order (the spec's §4.1 parity quantity). -/
def invCount : List Int → Nat
  | [] => 0
  | x :: xs => invPairs x xs + invCount xs

/-- Inversions between a prefix and a suffix block. -/
def crossCount (xs ys : List Int) : Nat :=
  (xs.map (fun x => invPairs x ys)).sum

/-- One pass of run.cpp's inner loop for a fixed outer index: toggles `num`
once for every later non-blank cell smaller than `x` (skipping blanks). -/
def toggleRow (x : Int) (ys : List Int) (num : Bool) : Bool :=
  ys.foldl (fun b y => if x ≠ -1 ∧ y ≠ -1 ∧ y < x then !b else b) num

/-- Toggle-accumulator of run.cpp's double loop `sum_of_reverse_number`
(lines 66–78): `num` starts at 0 and is negated (`num = !num`) once per
inversion pair. -/
def sumOfReverseAux : List Int → Bool → Bool
  | [], num => num
  | x :: xs, num => sumOfReverseAux xs (toggleRow x xs num)

/-- run.cpp's `sum_of_reverse_number(M, N, puzzle)`: the final toggle state,
converted to bool by C's nonzero test.  The C++ loops scan indices
0..M·N−1; the board list has exactly that length under the data-model
invariant. -/
def sum_of_reverse_number (M N : Nat) (p : List Int) : Bool :=
  sumOfReverseAux p false

/-- Row of the blank cell. -/
def blankRow (N : Nat) (p : List Int) : Nat :=
  find p (-1) / N

/-- run.cpp's `can_solve(M, N, puzzle)` (lines 81–91): `num` is the bool
result of `sum_of_reverse_number` converted back to int (0 or 1); for odd N
the test is `num % 2 == 0`, for even N it is `(num + move) % 2 == 0` with
`move = (M-1) - row` (row = blank row; under the data-model invariant
`row ≤ M-1`, so C's int subtraction agrees with Nat subtraction). -/
def can_solve (M N : Nat) (p : List Int) : Bool :=
  let num : Nat := if sum_of_reverse_number M N p then 1 else 0
  if N % 2 == 1 then
    num % 2 == 0
  else
    let pos := find p (-1)
    let row := pos / N
    let mv := (M - 1) - row
    (num + mv) % 2 == 0

/-- Spec-side solvability rule, written from the spec's words (§4.1): if N is
odd, solvable ⇔ the inversion count is even; if N is even, solvable ⇔ the sum
of the inversion count and (M−1 − blank_row) is even. -/
def is_solvable_spec (M N : Nat) (p : List Int) : Bool :=
  if N % 2 == 1 then invCount p % 2 == 0
  else (invCount p + ((M - 1) - blankRow N p)) % 2 == 0

/-- The data-model invariant (§3): the board is a permutation of the canonical
solved arrangement, i.e. each value 1..M·N−1 appears exactly once and the blank
exactly once. -/
def PermInv (M N : Nat) (p : List Int) : Prop :=
  p.Perm (solvedList M N)

/-- The body of run.cpp's `reshuffle` repair loop (lines 100–105): scan
row-major and swap the first adjacent pair of cells that are both non-blank. -/
def swapFirstPair : List Int → List Int
  | x :: y :: rest =>
      if x ≠ -1 ∧ y ≠ -1 then y :: x :: rest else x :: swapFirstPair (y :: rest)
  | l => l

/-- run.cpp's `reshuffle` repair loop (`while (!mark) { swap; mark =
can_solve(...); }`), with explicit fuel for the unbounded C++ `while`. -/
def reshuffleLoop (M N : Nat) (fuel : Nat) (p : List Int) (mark : Bool) :
    Option (List Int) :=
  if mark then some p
  else
    match fuel with
    | 0 => none
    | f + 1 =>
        let q := swapFirstPair p
        reshuffleLoop M N f q (can_solve M N q)

/-- Scalar inversion indicator for the ordered pair (x before y). -/
def invPair (x y : Int) : Nat :=
  if x ≠ -1 ∧ y ≠ -1 ∧ y < x then 1 else 0

theorem invPairs_nil (x : Int) : invPairs x [] = 0 := by
  simp [invPairs]

theorem invPairs_cons (x y : Int) (ys : List Int) :
    invPairs x (y :: ys) = invPair x y + invPairs x ys := by
  by_cases hx : x = -1
  · simp [invPairs, invPair, hx]
  · by_cases hy : y = -1
    · simp [invPairs, invPair, hx, hy, List.countP_cons]
    · by_cases hlt : y < x
      · simp [invPairs, invPair, hx, hy, hlt, List.countP_cons, Nat.add_comm]
      · simp [invPairs, invPair, hx, hy, hlt, List.countP_cons]

theorem invPairs_append (x : Int) (ys zs : List Int) :
    invPairs x (ys ++ zs) = invPairs x ys + invPairs x zs := by
  by_cases hx : x = -1
  · simp [invPairs, hx]
  · simp [invPairs, hx, List.countP_append]

theorem crossCount_nil_left (ys : List Int) : crossCount [] ys = 0 := by
  simp [crossCount]

theorem crossCount_cons_left (x : Int) (xs ys : List Int) :
    crossCount (x :: xs) ys = invPairs x ys + crossCount xs ys := by
  simp [crossCount]

theorem crossCount_nil_right (xs : List Int) : crossCount xs [] = 0 := by
  simp [crossCount, invPairs_nil]

theorem crossCount_append_right (xs ys zs : List Int) :
    crossCount xs (ys ++ zs) = crossCount xs ys + crossCount xs zs := by
  induction xs with
  | nil => simp [crossCount_nil_left]
  | cons x xs ih =>
      simp [crossCount_cons_left, invPairs_append, ih]
      omega

theorem crossCount_cons_right (xs : List Int) (y : Int) (ys : List Int) :
    crossCount xs (y :: ys) = crossCount xs [y] + crossCount xs ys := by
  have h := crossCount_append_right xs [y] ys
  simpa using h

theorem invCount_nil : invCount [] = 0 := rfl

theorem invCount_cons (x : Int) (xs : List Int) :
    invCount (x :: xs) = invPairs x xs + invCount xs := rfl

theorem invCount_append (xs ys : List Int) :
    invCount (xs ++ ys) = invCount xs + crossCount xs ys + invCount ys := by
  induction xs with
  | nil => simp [invCount_nil, crossCount_nil_left]
  | cons x xs ih =>
      simp [invCount_cons, invPairs_append, crossCount_cons_left, ih]
      omega

theorem invPair_single (x y : Int) : invPairs x [y] = invPair x y := by
  have h := invPairs_cons x y []
  simpa [invPairs_nil] using h

theorem crossCount_single (y : Int) (xs : List Int) :
    crossCount xs [y] = (xs.map (fun x => invPair x y)).sum := by
  simp [crossCount, invPair_single]

theorem invPair_total (a b : Int) (ha : a ≠ -1) (hb : b ≠ -1) (hab : a ≠ b) :
    invPair a b + invPair b a = 1 := by
  unfold invPair
  rcases lt_trichotomy a b with h | h | h
  · simp [ha, hb, h, not_lt_of_gt h]
  · exact absurd h hab
  · simp [ha, hb, h, not_lt_of_gt h]

theorem invPair_blank_right (a : Int) : invPair a (-1) = 0 := by
  simp [invPair]

/-- Complement identity: pairing a non-blank value `a`, absent from `m`, against
all of `m` in both orders counts exactly the non-blank cells of `m`. -/
theorem invPairs_add_crossCount (a : Int) (m : List Int) (ha : a ≠ -1)
    (ham : a ∉ m) :
    invPairs a m + crossCount m [a] = m.countP (fun y => !(y == -1)) := by
  induction m with
  | nil => simp [invPairs_nil, crossCount_nil_left]
  | cons y m ih =>
      have hya : y ≠ a := by
        intro h
        exact ham (by simp [h])
      have ham' : a ∉ m := fun h => ham (List.mem_cons_of_mem _ h)
      rw [invPairs_cons, crossCount_cons_left, invPair_single, List.countP_cons]
      by_cases hy : y = -1
      · simp [invPair, hy]
        have := ih ham'
        omega
      · have h1 : invPair a y + invPair y a = 1 :=
          invPair_total a y ha hy (fun h => hya h.symm)
        have := ih ham'
        simp [hy]
        omega

/-- Transposing two distinct non-blank values across an arbitrary gap flips
the parity of the inversion count. -/
theorem invCount_swap_flip (l₁ m l₂ : List Int) (a b : Int)
    (ha : a ≠ -1) (hb : b ≠ -1) (hab : a ≠ b) (ham : a ∉ m) (hbm : b ∉ m) :
    (invCount (l₁ ++ a :: (m ++ b :: l₂)) +
      invCount (l₁ ++ b :: (m ++ a :: l₂))) % 2 = 1 := by
  have expand : ∀ x y : Int,
      invCount (l₁ ++ x :: (m ++ y :: l₂)) =
        invCount l₁ +
          (crossCount l₁ [x] + (crossCount l₁ m + (crossCount l₁ [y] + crossCount l₁ l₂))) +
          ((invPairs x m + (invPair x y + invPairs x l₂)) +
            (invCount m + (crossCount m [y] + crossCount m l₂) +
              (invPairs y l₂ + invCount l₂))) := by
    intro x y
    rw [invCount_append, invCount_cons, invCount_append, invCount_cons,
      invPairs_append, invPairs_cons]
    have hc1 : crossCount l₁ (x :: (m ++ y :: l₂)) =
        crossCount l₁ [x] + (crossCount l₁ m + (crossCount l₁ [y] + crossCount l₁ l₂)) := by
      have h : x :: (m ++ y :: l₂) = [x] ++ (m ++ ([y] ++ l₂)) := by simp
      rw [h, crossCount_append_right, crossCount_append_right, crossCount_append_right]
    have hc2 : crossCount m (y :: l₂) = crossCount m [y] + crossCount m l₂ :=
      crossCount_cons_right m y l₂
    rw [hc1, hc2]
  rw [expand a b, expand b a]
  have h1 := invPairs_add_crossCount a m ha ham
  have h2 := invPairs_add_crossCount b m hb hbm
  have h3 := invPair_total a b ha hb hab
  omega

theorem beq_parity_add (A B : Nat) :
    ((A + B) % 2 == 1) = xor (A % 2 == 1) (B % 2 == 1) := by
  rcases Nat.mod_two_eq_zero_or_one A with hA | hA <;>
    rcases Nat.mod_two_eq_zero_or_one B with hB | hB <;>
      simp [Nat.add_mod, hA, hB]

theorem toggleRow_eq (x : Int) (ys : List Int) (b : Bool) :
    toggleRow x ys b = xor b (invPairs x ys % 2 == 1) := by
  induction ys generalizing b with
  | nil => simp [toggleRow, invPairs_nil]
  | cons y ys ih =>
      rw [invPairs_cons]
      show toggleRow x ys (if x ≠ -1 ∧ y ≠ -1 ∧ y < x then !b else b) = _
      by_cases h : x ≠ -1 ∧ y ≠ -1 ∧ y < x
      · rw [if_pos h, ih]
        have h1 : invPair x y = 1 := by simp [invPair, h]
        rw [h1, beq_parity_add]
        cases b <;> simp
      · rw [if_neg h, ih]
        have h0 : invPair x y = 0 := by unfold invPair; exact if_neg h
        rw [h0, Nat.zero_add]

theorem sumOfReverseAux_eq (xs : List Int) (b : Bool) :
    sumOfReverseAux xs b = xor b (invCount xs % 2 == 1) := by
  induction xs generalizing b with
  | nil => simp [sumOfReverseAux, invCount_nil]
  | cons x xs ih =>
      rw [sumOfReverseAux, toggleRow_eq, ih, invCount_cons, beq_parity_add,
        Bool.xor_assoc]

/-- The boolean-toggle accumulator computes exactly the inversion-count
parity. -/
theorem sum_of_reverse_number_eq_parity (M N : Nat) (p : List Int) :
    sum_of_reverse_number M N p = (invCount p % 2 == 1) := by
  rw [sum_of_reverse_number, sumOfReverseAux_eq]
  simp

instance (M N : Nat) (p : List Int) : Decidable (PermInv M N p) :=
  List.decidablePerm p (solvedList M N)

theorem can_solve_eq_spec_aux (M N : Nat) (p : List Int) :
    can_solve M N p = is_solvable_spec M N p := by
  simp only [can_solve, is_solvable_spec, blankRow, sum_of_reverse_number_eq_parity]
  have hnum : (if ((invCount p % 2 == 1) = true) then (1 : Nat) else 0)
      = invCount p % 2 := by
    rcases Nat.mod_two_eq_zero_or_one (invCount p) with h | h <;> simp [h]
  rw [hnum]
  have e1 : invCount p % 2 % 2 = invCount p % 2 := by omega
  have e2 : (invCount p % 2 + ((M - 1) - find p (-1) / N)) % 2
      = (invCount p + ((M - 1) - find p (-1) / N)) % 2 := by omega
  rw [e1, e2]

theorem mem_range_map_ne_blank (M N : Nat) (x : Int)
    (hx : x ∈ List.map (fun k : Nat => (k : Int) + 1) (List.range (M * N - 1))) :
    x ≠ -1 := by
  simp only [List.mem_map] at hx
  rcases hx with ⟨k, _, hk⟩
  intro h
  rw [h] at hk
  omega

theorem count_blank_solvedList (M N : Nat) : (solvedList M N).count (-1) = 1 := by
  unfold solvedList
  rw [List.count_append]
  have h : (List.map (fun k : Nat => (k : Int) + 1) (List.range (M * N - 1))).count (-1)
      = 0 := by
    rw [List.count_eq_zero]
    intro hmem
    exact mem_range_map_ne_blank M N (-1) hmem rfl
  rw [h]
  rfl

theorem length_solvedList (M N : Nat) (h : 1 ≤ M * N) :
    (solvedList M N).length = M * N := by
  unfold solvedList
  rw [List.length_append, List.length_map, List.length_range]
  simp
  omega

theorem nodup_solvedList (M N : Nat) : (solvedList M N).Nodup := by
  unfold solvedList
  have h1 : (List.map (fun k : Nat => (k : Int) + 1) (List.range (M * N - 1))).Nodup := by
    refine List.Nodup.map ?_ (List.nodup_range _)
    intro x y h
    simp only at h
    omega
  refine List.Nodup.append h1 (by simp) ?_
  intro x hx hy
  simp only [List.mem_singleton] at hy
  exact mem_range_map_ne_blank M N x hx hy

theorem PermInv.count_blank {M N : Nat} {p : List Int} (h : PermInv M N p) :
    p.count (-1) = 1 := by
  rw [List.Perm.count_eq h]
  exact count_blank_solvedList M N

theorem PermInv.length_eq {M N : Nat} {p : List Int} (h : PermInv M N p)
    (h1 : 1 ≤ M * N) : p.length = M * N := by
  rw [List.Perm.length_eq h]
  exact length_solvedList M N h1

theorem PermInv.nodup {M N : Nat} {p : List Int} (h : PermInv M N p) :
    p.Nodup := (List.Perm.nodup_iff h).mpr (nodup_solvedList M N)

theorem find_cons_ne (x : Int) (xs : List Int) (v : Int) (h : x ≠ v) :
    find (x :: xs) v = find xs v + 1 := by
  unfold find
  rw [List.findIdx_cons]
  have hb : (x == v) = false := by simpa using h
  rw [hb, Bool.cond_false]

theorem find_cons_self (x : Int) (xs : List Int) :
    find (x :: xs) x = 0 := by
  unfold find
  rw [List.findIdx_cons]
  have hb : (x == x) = true := by simp
  rw [hb, Bool.cond_true]

/-- Swapping two non-blank values does not change where the first blank is. -/
theorem find_blank_swap_pair (l₁ l₂ : List Int) (a b : Int)
    (ha : a ≠ -1) (hb : b ≠ -1) :
    find (l₁ ++ a :: b :: l₂) (-1) = find (l₁ ++ b :: a :: l₂) (-1) := by
  induction l₁ with
  | nil =>
      simp only [List.nil_append, find_cons_ne _ _ _ ha, find_cons_ne _ _ _ hb]
  | cons x l₁ ih =>
      by_cases hx : x = -1
      · subst hx
        simp only [List.cons_append, find_cons_self]
      · simp only [List.cons_append, find_cons_ne _ _ _ hx, ih]

/-- Transposing two adjacent non-blank distinct values flips `can_solve`. -/
theorem can_solve_swap_pair (M N : Nat) (l₁ l₂ : List Int) (a b : Int)
    (ha : a ≠ -1) (hb : b ≠ -1) (hab : a ≠ b) :
    can_solve M N (l₁ ++ b :: a :: l₂) = !can_solve M N (l₁ ++ a :: b :: l₂) := by
  have hflip := invCount_swap_flip l₁ [] l₂ a b ha hb hab (by simp) (by simp)
  simp only [List.nil_append] at hflip
  have hfind := find_blank_swap_pair l₁ l₂ a b ha hb
  rw [can_solve_eq_spec_aux, can_solve_eq_spec_aux]
  unfold is_solvable_spec blankRow
  rw [← hfind]
  rcases Nat.mod_two_eq_zero_or_one (invCount (l₁ ++ a :: b :: l₂)) with h | h <;>
    rcases Nat.mod_two_eq_zero_or_one (invCount (l₁ ++ b :: a :: l₂)) with h' | h'
  · omega
  · by_cases hN : N % 2 == 1
    · simp [hN, h, h']
    · simp only [hN, Bool.false_eq_true, if_false]
      rw [Nat.add_mod, Nat.add_mod (invCount (l₁ ++ a :: b :: l₂)), h, h']
      rcases Nat.mod_two_eq_zero_or_one ((M - 1) - find (l₁ ++ a :: b :: l₂) (-1) / N)
        with hm | hm <;> simp [hm]
  · by_cases hN : N % 2 == 1
    · simp [hN, h, h']
    · simp only [hN, Bool.false_eq_true, if_false]
      rw [Nat.add_mod, Nat.add_mod (invCount (l₁ ++ a :: b :: l₂)), h, h']
      rcases Nat.mod_two_eq_zero_or_one ((M - 1) - find (l₁ ++ a :: b :: l₂) (-1) / N)
        with hm | hm <;> simp [hm]
  · omega

/-- The repair scan finds an adjacent non-blank pair within the first three
cells of any board with at least four cells and at most one blank, and swaps
exactly that first pair. -/
theorem swapFirstPair_decomp (p : List Int) (hlen : 4 ≤ p.length)
    (hcnt : p.count (-1) ≤ 1) :
    ∃ (l₁ l₂ : List Int) (a b : Int), p = l₁ ++ a :: b :: l₂ ∧
      swapFirstPair p = l₁ ++ b :: a :: l₂ ∧ a ≠ -1 ∧ b ≠ -1 ∧
      (∀ j, j < l₁.length → ¬(p.getD j 0 ≠ -1 ∧ p.getD (j + 1) 0 ≠ -1)) := by
  match p, hlen with
  | c0 :: c1 :: c2 :: c3 :: rest, _ =>
    by_cases h01 : c0 ≠ -1 ∧ c1 ≠ -1
    · refine ⟨[], c2 :: c3 :: rest, c0, c1, rfl, ?_, h01.1, h01.2, ?_⟩
      · simp [swapFirstPair, h01]
      · intro j hj
        simp at hj
    · by_cases hc0 : c0 = -1
      · subst hc0
        have hc1 : c1 ≠ -1 := by
          intro h
          subst h
          simp [List.count_cons] at hcnt <;> split_ifs at hcnt <;> omega
        have hc2 : c2 ≠ -1 := by
          intro h
          subst h
          simp [List.count_cons] at hcnt <;> split_ifs at hcnt <;> omega
        refine ⟨[-1], c3 :: rest, c1, c2, rfl, ?_, hc1, hc2, ?_⟩
        · have hfail : ¬((-1 : Int) ≠ -1 ∧ c1 ≠ -1) := by simp
          simp only [swapFirstPair, if_neg hfail, if_pos (And.intro hc1 hc2)]
          rfl
        · intro j hj
          simp at hj
          subst hj
          simp
      · have hc1 : c1 = -1 := by tauto
        subst hc1
        have hc2 : c2 ≠ -1 := by
          intro h
          subst h
          simp [List.count_cons] at hcnt <;> split_ifs at hcnt <;> omega
        have hc3 : c3 ≠ -1 := by
          intro h
          subst h
          simp [List.count_cons] at hcnt <;> split_ifs at hcnt <;> omega
        refine ⟨[c0, -1], rest, c2, c3, rfl, ?_, hc2, hc3, ?_⟩
        · have hfail1 : ¬(c0 ≠ -1 ∧ (-1 : Int) ≠ -1) := by simp
          have hfail2 : ¬((-1 : Int) ≠ -1 ∧ c2 ≠ -1) := by simp
          simp only [swapFirstPair, if_neg hfail1, if_neg hfail2,
            if_pos (And.intro hc2 hc3)]
          rfl
        · intro j hj
          simp at hj
          interval_cases j <;> simp

theorem getD_append_at (l₁ : List Int) (a : Int) (t : List Int) :
    (l₁ ++ a :: t).getD l₁.length 0 = a := by
  induction l₁ with
  | nil => rfl
  | cons x l₁ ih => simpa using ih

theorem set_append_at (l₁ : List Int) (a v : Int) (t : List Int) :
    (l₁ ++ a :: t).set l₁.length v = l₁ ++ v :: t := by
  induction l₁ with
  | nil => rfl
  | cons x l₁ ih => simpa using ih

theorem getD_append_at_succ (l₁ : List Int) (a b : Int) (t : List Int) :
    (l₁ ++ a :: b :: t).getD (l₁.length + 1) 0 = b := by
  have h := getD_append_at (l₁ ++ [a]) b t
  simpa using h

theorem set_append_at_succ (l₁ : List Int) (a b v : Int) (t : List Int) :
    (l₁ ++ a :: b :: t).set (l₁.length + 1) v = l₁ ++ a :: v :: t := by
  have h := set_append_at (l₁ ++ [a]) b v t
  simpa using h

/-- Claim C2: on boards satisfying the permutation invariant, `can_solve`
agrees with the spec's closed-form parity rule: for odd N solvable ⇔ even
inversion count, for even N solvable ⇔ `inversions + (M−1 − blank_row)`
even. -/
theorem can_solve_matches_closed_form (M N : Nat) (p : List Int)
    (hinv : PermInv M N p) :
    can_solve M N p = is_solvable_spec M N p :=
  can_solve_eq_spec_aux M N p

theorem can_solve_matches_closed_form_witness :
    PermInv 2 2 [2, 1, 3, -1] ∧
      can_solve 2 2 [2, 1, 3, -1] = is_solvable_spec 2 2 [2, 1, 3, -1] :=
  ⟨by decide, can_solve_matches_closed_form 2 2 [2, 1, 3, -1] (by decide)⟩

/-- Claim C10: the boolean-toggle loop of `sum_of_reverse_number` computes
exactly the inversion count reduced mod 2; hence in `can_solve` the variable
`num` (the bool recast to an int) is the inversion parity, only ever 0 or 1,
and the parity tests decide exactly the spec's closed-form rule. -/
theorem sum_of_reverse_number_refines_parity (M N : Nat) (p : List Int) :
    sum_of_reverse_number M N p = (invCount p % 2 == 1) ∧
    (if sum_of_reverse_number M N p then (1 : Nat) else 0) = invCount p % 2 ∧
    can_solve M N p = is_solvable_spec M N p := by
  refine ⟨sum_of_reverse_number_eq_parity M N p, ?_, can_solve_eq_spec_aux M N p⟩
  rw [sum_of_reverse_number_eq_parity]
  rcases Nat.mod_two_eq_zero_or_one (invCount p) with h | h <;> simp [h]

theorem reshuffleLoop_true (M N fuel : Nat) (p : List Int) :
    reshuffleLoop M N fuel p true = some p := by
  unfold reshuffleLoop
  rfl

/-- Claim C4: on any board satisfying the permutation invariant that
`can_solve` rejects, the repair loop executes exactly one iteration — whatever
fuel remains it returns after the single swap — the swap exchanges the first
row-major adjacent pair of non-blank cells, and the repaired board passes
`can_solve`. -/
theorem reshuffle_one_iteration (M N : Nat) (p : List Int) (hM : 2 ≤ M)
    (hN : 2 ≤ N) (hinv : PermInv M N p) (hun : can_solve M N p = false) :
    (∀ fuel : Nat, reshuffleLoop M N (fuel + 1) p false = some (swapFirstPair p)) ∧
    can_solve M N (swapFirstPair p) = true ∧
    ∃ k : Nat, p.getD k 0 ≠ -1 ∧ p.getD (k + 1) 0 ≠ -1 ∧
      (∀ j, j < k → ¬(p.getD j 0 ≠ -1 ∧ p.getD (j + 1) 0 ≠ -1)) ∧
      swapFirstPair p = (p.set k (p.getD (k + 1) 0)).set (k + 1) (p.getD k 0) := by
  have hMN : 4 ≤ M * N := by
    calc 4 = 2 * 2 := rfl
    _ ≤ M * N := Nat.mul_le_mul hM hN
  have hlen : 4 ≤ p.length := by
    rw [hinv.length_eq (by omega)]
    exact hMN
  have hcnt : p.count (-1) ≤ 1 := le_of_eq hinv.count_blank
  obtain ⟨l₁, l₂, a, b, hp, hswap, ha, hb, hfirst⟩ :=
    swapFirstPair_decomp p hlen hcnt
  have hnd : p.Nodup := hinv.nodup
  have hab : a ≠ b := by
    rw [hp] at hnd
    have h1 := (List.nodup_append.mp hnd).2.1
    intro h
    rw [h] at h1
    simp at h1
  have hsolv : can_solve M N (swapFirstPair p) = true := by
    rw [hswap, can_solve_swap_pair M N l₁ l₂ a b ha hb hab, ← hp, hun]
    rfl
  refine ⟨?_, hsolv, l₁.length, ?_, ?_, hfirst, ?_⟩
  · intro fuel
    have hstep : reshuffleLoop M N (fuel + 1) p false =
        reshuffleLoop M N fuel (swapFirstPair p)
          (can_solve M N (swapFirstPair p)) := rfl
    rw [hstep, hsolv, reshuffleLoop_true]
  · rw [hp, getD_append_at]
    exact ha
  · rw [hp, getD_append_at_succ]
    exact hb
  · rw [hp, getD_append_at, getD_append_at_succ, set_append_at, set_append_at_succ,
      ← hp, hswap]

theorem reshuffle_one_iteration_witness :
    (2 ≤ 3 ∧ PermInv 3 3 [2, 1, 3, 4, 5, 6, 7, 8, -1] ∧
      can_solve 3 3 [2, 1, 3, 4, 5, 6, 7, 8, -1] = false) ∧
    (∀ fuel : Nat, reshuffleLoop 3 3 (fuel + 1) [2, 1, 3, 4, 5, 6, 7, 8, -1] false
        = some (swapFirstPair [2, 1, 3, 4, 5, 6, 7, 8, -1])) ∧
    can_solve 3 3 (swapFirstPair [2, 1, 3, 4, 5, 6, 7, 8, -1]) = true := by
  have h := reshuffle_one_iteration 3 3 [2, 1, 3, 4, 5, 6, 7, 8, -1]
    (by decide) (by decide) (by decide) (by decide)
  exact ⟨⟨by decide, by decide, by decide⟩, h.1, h.2.1⟩

/-- State threaded through the solving routines: the board and the pending
move log `sol` (autoMxN.cpp's `puzzle` array and `sol` vector). -/
abbrev SolState := List Int × List Char

/-- autoMxN.cpp's `auto_change` (lines 10–19): apply one primitive move and
push its symbol onto `sol`; the `printout` branch only renders. -/
def auto_change (M N : Nat) (c : Char) (st : SolState) : Option SolState :=
  (change M N st.1 c).map fun p => (p, st.2 ++ [c])

/-- autoMxN.cpp's `append` (lines 21–32): extend `sol` by the macro `s`, then
apply each of its moves in order. -/
def appendMoves (M N : Nat) (s : List Char) (st : SolState) : Option SolState :=
  (applyMoves M N st.1 s).map fun p => (p, st.2 ++ s)

/-- Apply `auto_change` with the same symbol `n` times (the bodies of the
`move_h` / `move_v` for loops). -/
def repChange (M N : Nat) (c : Char) : Nat → SolState → Option SolState
  | 0, st => some st
  | n + 1, st => (auto_change M N c st).bind (repChange M N c n)

/-- Apply the macro `s` a fixed number of times (the counted `for` loops that
repeat a 5-move recipe). -/
def repAppend (M N : Nat) (s : List Char) : Nat → SolState → Option SolState
  | 0, st => some st
  | n + 1, st => (appendMoves M N s st).bind (repAppend M N s n)

/-- autoMxN.cpp's `move_h` (lines 34–44): slide the blank horizontally to
column `c` (an `int` in C++, it may be −1 in some call sites). -/
def move_h (M N : Nat) (c : Int) (st : SolState) : Option SolState :=
  let c_b : Int := ((find st.1 (-1) % N : Nat) : Int)
  let d : Int := c_b - c
  if 0 < d then repChange M N 'A' d.toNat st
  else repChange M N 'D' (-d).toNat st

/-- autoMxN.cpp's `move_v` (lines 45–54): slide the blank vertically to
row `r`. -/
def move_v (M N : Nat) (r : Int) (st : SolState) : Option SolState :=
  let r_b : Int := ((find st.1 (-1) / N : Nat) : Int)
  let d : Int := r_b - r
  if 0 < d then repChange M N 'W' d.toNat st
  else repChange M N 'S' (-d).toNat st

/-- Computations inside the body of `move`, which can either return early
(`Sum.inl`, C++ `return`) or fall through to the rest of the body
(`Sum.inr`). -/
abbrev MoveM := Option (SolState ⊕ SolState)

def contM (st : SolState) : MoveM := some (Sum.inr st)

def exitM (st : SolState) : MoveM := some (Sum.inl st)

def thenM (x : MoveM) (k : SolState → MoveM) : MoveM :=
  x.bind fun s =>
    match s with
    | Sum.inl st => some (Sum.inl st)
    | Sum.inr st => k st

/-- The recurring `if (puzzle[i*N+j]==num) return;` check of `move`. -/
def checkDone (idx : Nat) (num : Int) (st : SolState) : MoveM :=
  if st.1.getD idx 0 == num then exitM st else contM st

def runM (x : MoveM) : Option SolState :=
  x.map fun s =>
    match s with
    | Sum.inl st => st
    | Sum.inr st => st

def liftM (x : Option SolState) (k : SolState → MoveM) : MoveM :=
  x.bind k

/-- The trailing loop of `move` (lines 158–162): repeat the `D W W A S` macro;
the C++ loop counter shadows the target row `i`, so the early-exit check reads
`puzzle[ii*N+j]` at the loop counter `ii`, exactly as the source does. -/
def moveDrLoop (M N : Nat) (num : Int) (j : Nat) : Nat → Nat → SolState → Option SolState
  | 0, _, st => some st
  | n + 1, ii, st =>
      (appendMoves M N ['D', 'W', 'W', 'A', 'S'] st).bind fun st' =>
        if st'.1.getD (ii * N + j) 0 == num then some st'
        else moveDrLoop M N num j n (ii + 1) st'

/-- autoMxN.cpp's `move` (lines 58–164): relocate the tile currently at
(r, c) to the cell (i, j).  `num` is read at entry; every `return` of the C++
body is an `exitM`. -/
def move (r c i j M N : Nat) (st : SolState) : Option SolState :=
  let num := st.1.getD (r * N + c) 0
  let idx := i * N + j
  runM (
    thenM
      (if c ≠ j then
        liftM (if find st.1 (-1) / N = i then auto_change M N 'S' st else some st) fun st1 =>
        thenM (checkDone idx num st1) fun st1 =>
        let dir := c < j
        liftM (if dir then move_h M N ((c : Int) + 1) st1
               else move_h M N ((c : Int) - 1) st1) fun st2 =>
        thenM (checkDone idx num st2) fun st2 =>
        liftM (move_v M N (r : Int) st2) fun st3 =>
        thenM (checkDone idx num st3) fun st3 =>
        if r ≠ M - 1 then
          if dir then
            liftM (auto_change M N 'A' st3) fun st4 =>
            thenM (checkDone idx num st4) fun st4 =>
            liftM (repAppend M N ['S', 'D', 'D', 'W', 'A'] (j - c - 1) st4) contM
          else
            liftM (auto_change M N 'D' st3) fun st4 =>
            thenM (checkDone idx num st4) fun st4 =>
            liftM (repAppend M N ['S', 'A', 'A', 'W', 'D'] (c - j - 1) st4) contM
        else
          if dir then
            liftM (auto_change M N 'A' st3) fun st4 =>
            thenM (checkDone idx num st4) fun st4 =>
            liftM (repAppend M N ['W', 'D', 'D', 'S', 'A'] (j - c - 1) st4) contM
          else
            liftM (auto_change M N 'D' st3) fun st4 =>
            thenM (checkDone idx num st4) fun st4 =>
            liftM (repAppend M N ['W', 'A', 'A', 'S', 'D'] (c - j - 1) st4) contM
      else contM st) fun stA =>
    if r ≠ i then
      thenM
        (if c = j then
          -- same_c: the column phase did not run
          if r ≠ i + 1 then
            liftM (move_v M N ((r : Int) - 1) stA) fun st5 =>
            thenM (checkDone idx num st5) fun st5 =>
            liftM (move_h M N (c : Int) st5) fun st5 =>
            checkDone idx num st5
          else
            liftM (move_v M N ((r : Int) + 1) stA) fun st5 =>
            thenM (checkDone idx num st5) fun st5 =>
            liftM (move_h M N ((c : Int) + 1) st5) fun st5 =>
            thenM (checkDone idx num st5) fun st5 =>
            liftM (move_v M N ((r : Int) - 1) st5) fun st5 =>
            thenM (checkDone idx num st5) fun st5 =>
            liftM (move_h M N (c : Int) st5) fun st5 =>
            checkDone idx num st5
        else if c < j then
          -- dir: the blank ended left of the target
          thenM
            (if r ≠ M - 1 then
              liftM (appendMoves M N ['S', 'D', 'D', 'W', 'W', 'A'] stA) fun st5 =>
              checkDone idx num st5
            else
              liftM (auto_change M N 'W' stA) fun st5 =>
              thenM (checkDone idx num st5) fun st5 =>
              liftM (auto_change M N 'D' st5) fun st5 =>
              checkDone idx num st5) fun st6 =>
          liftM (auto_change M N 'S' st6) fun st6 =>
          checkDone idx num st6
        else
          liftM (auto_change M N 'W' stA) fun st5 =>
          thenM (checkDone idx num st5) fun st5 =>
          liftM (auto_change M N 'A' st5) fun st5 =>
          checkDone idx num st5) fun stB =>
      liftM (auto_change M N 'S' stB) fun stC =>
      liftM (moveDrLoop M N num j (r - i - 1) 2 stC) contM
    else contM stA)

/-- The `while (puzzle[tgt] != num) { find; move(...); }` loops of
`autosolve`, with explicit fuel. -/
def placeLoop (M N i j : Nat) (num : Int) : Nat → SolState → Option SolState
  | fuel, st =>
    if st.1.getD (i * N + j) 0 == num then some st
    else
      match fuel with
      | 0 => none
      | f + 1 =>
          let pos := find st.1 num
          (move (pos / N) (pos % N) i j M N st).bind (placeLoop M N i j num f)

/-- autoMxN.cpp's `solve_1x2` (lines 167–324): place the last two cells of
row `i` as a pair.  Straight-line code with counted macro loops; all `find`
results and loop counts mirror the C++ locals, including the stale/refreshed
values of `r[1]`, `c[1]`, `r[2]`, `c[2]`. -/
def solve_1x2 (M N i : Nat) (st : SolState) : Option SolState :=
  (if find st.1 (-1) / N = i then auto_change M N 'S' st else some st).bind fun st =>
  let pos := find st.1 ((i * N + N : Nat) : Int)
  let r2 := pos / N
  let c2 := pos % N
  (if r2 < i + 2 then
    (move_v M N ((i : Int) + 2) st).bind fun st =>
    (move_h M N (c2 : Int) st).bind fun st =>
    (move_v M N ((r2 : Int) + 1) st).bind fun st =>
    (auto_change M N 'W' st).bind fun st =>
    if c2 ≠ N - 1 then
      repAppend M N ['D', 'S', 'S', 'A', 'W'] (i + 2 - r2 - 1) st
    else
      repAppend M N ['A', 'S', 'S', 'D', 'W'] (i + 2 - r2 - 1) st
   else some st).bind fun st =>
  let pos := find st.1 ((i * N + N - 1 : Nat) : Int)
  let r1 := pos / N
  let c1 := pos % N
  let r_b := find st.1 (-1) / N
  (if r1 = r_b then auto_change M N 'S' st else some st).bind fun st =>
  -- the column phase refreshes (r1, c1); same_c records whether it ran
  (if c1 ≠ N - 1 then
    (move_h M N ((c1 : Int) + 1) st).bind fun st =>
    (move_v M N (r1 : Int) st).bind fun st =>
    (auto_change M N 'A' st).bind fun st =>
    let pos := find st.1 ((i * N + N - 1 : Nat) : Int)
    let r1 := pos / N
    let c1 := pos % N
    let d := N - 1 - c1
    (if r1 ≠ M - 1 then
      repAppend M N ['S', 'D', 'D', 'W', 'A'] d st
     else
      repAppend M N ['W', 'D', 'D', 'S', 'A'] d st).map fun st => (st, r1, false)
   else some (st, r1, true)).bind fun stc =>
  let st := stc.1
  let r1 := stc.2.1
  let same_c := stc.2.2
  (if r1 ≠ i + 1 then
    (if same_c then
      (move_h M N ((N : Int) - 1) st).bind (move_v M N (r1 : Int))
     else some st).bind fun st =>
    if r1 = i then
      appendMoves M N ['S', 'D', 'W', 'A', 'S'] st
    else
      (auto_change M N 'W' st).bind fun st =>
      (auto_change M N 'D' st).bind fun st =>
      (auto_change M N 'S' st).bind fun st =>
      repAppend M N ['A', 'W', 'W', 'D', 'S'] (r1 - (i + 1) - 1) st
   else some st).bind fun st =>
  let temp := find st.1 ((i * N + N : Nat) : Int)
  let r2 := temp / N
  let c2 := temp % N
  (if r2 = i ∧ c2 = N - 1 then
    (move_h M N ((N : Int) - 2) st).bind fun st =>
    (move_v M N (i : Int) st).bind fun st =>
    appendMoves M N
      ['D', 'S', 'A', 'W', 'D', 'S', 'S', 'A', 'W', 'W', 'D', 'S', 'S', 'A', 'W', 'D', 'S', 'A'] st
   else
    let r_b := find st.1 (-1) / N
    (if c2 ≠ N - 1 then
      (if r2 = r_b then auto_change M N 'S' st else some st).bind fun st =>
      (if c2 ≠ N - 2 then
        (move_h M N ((c2 : Int) + 1) st).bind (move_v M N (r2 : Int))
       else
        if r2 ≠ i + 2 then
          (move_v M N ((r2 : Int) - 1) st).bind fun st =>
          (move_h M N ((c2 : Int) + 1) st).bind fun st =>
          move_v M N (r2 : Int) st
        else
          (move_h M N ((c2 : Int) - 1) st).bind fun st =>
          (move_v M N ((r2 : Int) + 1) st).bind fun st =>
          (move_h M N ((c2 : Int) + 1) st).bind fun st =>
          move_v M N (r2 : Int) st).bind fun st =>
      (auto_change M N 'A' st).bind fun st =>
      (if r2 ≠ M - 1 then
        repAppend M N ['S', 'D', 'D', 'W', 'A'] (N - 1 - c2 - 1) st
       else
        repAppend M N ['W', 'D', 'D', 'S', 'A'] (N - 1 - c2 - 1) st).map
        fun st => (st, false)
     else some (st, true)).bind fun stc =>
    let st := stc.1
    let same_c := stc.2
    if r2 ≠ i + 2 then
      (if same_c then
        (move_h M N ((N : Int) - 2) st).bind (move_v M N (r2 : Int))
       else some st).bind fun st =>
      (auto_change M N 'W' st).bind fun st =>
      (auto_change M N 'D' st).bind fun st =>
      (auto_change M N 'S' st).bind fun st =>
      repAppend M N ['A', 'W', 'W', 'D', 'S'] (r2 - (i + 2) - 1) st
    else some st).bind fun st =>
  (move_h M N ((N : Int) - 2) st).bind fun st =>
  (move_v M N (i : Int) st).bind fun st =>
  appendMoves M N ['D', 'S', 'S', 'A', 'W', 'W', 'D', 'S'] st

/-- The `while (c != tgt) { append WAASD; c--; }` loops of `solve_2x1`, with
fuel: the C++ `int` would loop forever if `c` started below `tgt`, and so does
the Nat model (it runs out of fuel). -/
def solve2x1Loop (M N tgt : Nat) : Nat → Nat → SolState → Option SolState
  | fuel, c1, st =>
    if c1 = tgt then some st
    else
      match fuel with
      | 0 => none
      | f + 1 =>
          (appendMoves M N ['W', 'A', 'A', 'S', 'D'] st).bind
            (solve2x1Loop M N tgt f (c1 - 1))

/-- One column-pair iteration of autoMxN.cpp's `solve_2x1` (lines 330–384). -/
def solve2x1Col (M N fuel i : Nat) (st : SolState) : Option SolState :=
  let pos1 := find st.1 (((M - 2) * N + i + 1 : Nat) : Int)
  let r1 := pos1 / N
  let c1 := pos1 % N
  (if r1 ≠ M - 1 then
    (move_v M N ((M : Int) - 1) st).bind fun st =>
    (move_h M N (c1 : Int) st).bind fun st =>
    auto_change M N 'W' st
   else some st).bind fun st =>
  (if c1 ≠ i then
    (move_v M N ((M : Int) - 2) st).bind fun st =>
    (move_h M N ((c1 : Int) - 1) st).bind fun st =>
    (move_v M N ((M : Int) - 1) st).bind fun st =>
    (auto_change M N 'D' st).bind fun st =>
    solve2x1Loop M N i fuel (c1 - 1) st
   else some st).bind fun st =>
  let pos2 := find st.1 (((M - 1) * N + i + 1 : Nat) : Int)
  let r2 := pos2 / N
  let c2 := pos2 % N
  (if r2 = M - 2 ∧ c2 = i then
    (move_v M N ((M : Int) - 2) st).bind fun st =>
    (move_h M N ((i : Int) + 1) st).bind fun st =>
    appendMoves M N
      ['A', 'S', 'D', 'D', 'W', 'A', 'S', 'A', 'W', 'D', 'S', 'D', 'W', 'A', 'S', 'D', 'W', 'A', 'A', 'S', 'D'] st
   else if r2 = M - 2 ∧ c2 = i + 1 ∧ st.1.getD ((M - 2) * N + i) 0 == -1 then
    appendMoves M N
      ['S', 'D', 'D', 'W', 'A', 'S', 'A', 'W', 'D', 'S', 'D', 'W', 'A', 'S', 'D', 'W', 'A', 'A', 'S', 'D'] st
   else
    (if r2 ≠ M - 1 then
      (move_h M N ((i : Int) + 1) st).bind fun st =>
      (move_v M N ((M : Int) - 1) st).bind fun st =>
      (move_h M N (c2 : Int) st).bind fun st =>
      auto_change M N 'W' st
     else some st).bind fun st =>
    if c2 ≠ i + 1 then
      (move_v M N ((M : Int) - 2) st).bind fun st =>
      (move_h M N ((c2 : Int) - 1) st).bind fun st =>
      (move_v M N ((M : Int) - 1) st).bind fun st =>
      (auto_change M N 'D' st).bind fun st =>
      solve2x1Loop M N (i + 1) fuel (c2 - 1) st
    else some st).bind fun st =>
  if !(st.1.getD ((M - 2) * N + i) 0 == (((M - 2) * N + i + 1 : Nat) : Int)) then
    (move_v M N ((M : Int) - 2) st).bind fun st =>
    (move_h M N (i : Int) st).bind fun st =>
    (auto_change M N 'S' st).bind fun st =>
    auto_change M N 'D' st
  else some st

/-- The `for (int i=0; i<=N-3; i++)` driver of `solve_2x1`. -/
def solve2x1Cols (M N fuel : Nat) : Nat → Nat → SolState → Option SolState
  | 0, _, st => some st
  | n + 1, i, st => (solve2x1Col M N fuel i st).bind (solve2x1Cols M N fuel n (i + 1))

/-- autoMxN.cpp's `solve_2x1` (lines 327–385). -/
def solve_2x1 (M N fuel : Nat) (st : SolState) : Option SolState :=
  solve2x1Cols M N fuel (N - 2) 0 st

/-- Exit condition of the terminal 2×2 loop (autoMxN.cpp line 512): keep
rotating while any of the three non-blank cells of the block is wrong. -/
def endgameCond (M N : Nat) (p : List Int) : Bool :=
  !(p.getD (M * N - 2) 0 == ((M * N - 1 : Nat) : Int)) ||
  !(p.getD ((M - 1) * N - 1) 0 == (((M - 1) * N : Nat) : Int)) ||
  !(p.getD ((M - 1) * N - 2) 0 == (((M - 1) * N - 1 : Nat) : Int))

/-- The terminal `while (...) append AWDS` loop (lines 512–515), with fuel:
while the exit condition fails, apply the 4-move rotation; exhausting the fuel
mid-loop is `none`. -/
def endgameLoop (M N : Nat) : Nat → SolState → Option SolState
  | 0, st => if endgameCond M N st.1 then none else some st
  | f + 1, st =>
      if endgameCond M N st.1 then
        (appendMoves M N ['A', 'W', 'D', 'S'] st).bind (endgameLoop M N f)
      else some st

/-- Full state of `autosolve`: the board, the pending `sol` vector, the
concatenation of all reported move segments (in emission order), and the
`step` counter. -/
structure AutoState where
  board : List Int
  sol : List Char
  emitted : List Char
  step : Nat
  deriving DecidableEq

/-- Run a `SolState` routine inside `autosolve`'s state. -/
def liftSol (f : SolState → Option SolState) (a : AutoState) : Option AutoState :=
  (f (a.board, a.sol)).map fun st => { a with board := st.1, sol := st.2 }

/-- Step accounting at a report point: with printout the C++ prints each
symbol and increments `step` once per symbol; without it, `step += sol.size()`.
Both are followed by `sol.clear()`. -/
def stepAdd (printout : Bool) (sol : List Char) : Nat :=
  if printout then sol.foldl (fun n _ => n + 1) 0 else sol.length

def report (printout : Bool) (a : AutoState) : AutoState :=
  { board := a.board, sol := [], emitted := a.emitted ++ a.sol,
    step := a.step + stepAdd printout a.sol }

/-- Check that cells `lo..hi` hold their target values (`puzzle[k] == k+1`). -/
def cellsOk (p : List Int) (lo hi : Nat) : Bool :=
  (List.range (hi + 1 - lo)).all fun t => p.getD (lo + t) 0 == ((lo + t + 1 : Nat) : Int)

/-- The `for (int j=0; j<=N-3; j++)` tile-placement loop of a row phase. -/
def colsLoop (M N fuel i : Nat) : Nat → Nat → AutoState → Option AutoState
  | 0, _, a => some a
  | n + 1, j, a =>
      (liftSol (placeLoop M N i j ((i * N + j + 1 : Nat) : Int) fuel) a).bind
        (colsLoop M N fuel i n (j + 1))

/-- One iteration of `autosolve`'s top row loop (lines 411–462): place columns
0..N−3, finish the row with `solve_1x2`, re-rotate with `A W D S` if the last
three cells are wrong, and report/clear the segment if the row checks out. -/
def rowPhase (M N : Nat) (printout : Bool) (fuel i : Nat) (a : AutoState) :
    Option AutoState :=
  (colsLoop M N fuel i (N - 2) 0 a).bind fun a =>
  (liftSol (solve_1x2 M N i) a).bind fun a =>
  let correct := cellsOk a.board ((i + 1) * N - 3) ((i + 1) * N - 1)
  (if !correct then liftSol (appendMoves M N ['A', 'W', 'D', 'S']) a else some a).bind
    fun a =>
  let check := cellsOk a.board (i * N) (i * N + N - 1)
  some (if check then report printout a else a)

def rowsLoop (M N : Nat) (printout : Bool) (fuel : Nat) :
    Nat → Nat → AutoState → Option AutoState
  | 0, _, a => some a
  | n + 1, i, a =>
      (rowPhase M N printout fuel i a).bind (rowsLoop M N printout fuel n (i + 1))

/-- The last-three-rows lead-in of `autosolve` (lines 464–506). -/
def last3Phase (M N fuel : Nat) (a : AutoState) : Option AutoState :=
  let i := M - 3
  (colsLoop M N fuel i (N - 2) 0 a).bind fun a =>
  (liftSol (placeLoop M N i (N - 2) (((i + 1) * N : Nat) : Int) fuel) a).bind fun a =>
  let num := (((i + 1) * N - 1 : Nat) : Int)
  let pos := find a.board num
  let r := pos / N
  let c := pos % N
  if r = M - 3 ∧ c = N - 1 then
    (liftSol (move_h M N ((N : Int) - 2)) a).bind fun a =>
    (liftSol (move_v M N ((M : Int) - 2)) a).bind fun a =>
    liftSol (appendMoves M N
      ['W', 'D', 'S', 'S', 'A', 'W', 'D', 'S', 'A', 'W', 'W', 'D', 'S', 'A',
       'W', 'D', 'S', 'S', 'A', 'W', 'W', 'D', 'S', 'S']) a
  else
    (liftSol (placeLoop M N (M - 2) (N - 2) num fuel) a).bind fun a =>
    (liftSol (move_v M N ((M : Int) - 1)) a).bind fun a =>
    (liftSol (move_h M N ((N : Int) - 1)) a).bind fun a =>
    (liftSol (move_v M N ((M : Int) - 3)) a).bind fun a =>
    (liftSol (auto_change M N 'A') a).bind fun a =>
    liftSol (auto_change M N 'S') a

/-- autoMxN.cpp's `autosolve` (lines 387–535).  `printout` models the user's
answer to the render prompt; the fuel bounds each C++ `while` loop.  Returns
the final board, the concatenation of the reported move segments in emission
order, and the step count. -/
def autosolve (M N : Nat) (printout : Bool) (fuel : Nat) (p : List Int) :
    Option (List Int × List Char × Nat) :=
  let a0 : AutoState := ⟨p, [], [], 0⟩
  (rowsLoop M N printout fuel (M - 3) 0 a0).bind fun a =>
  (if 3 ≤ M then last3Phase M N fuel a else some a).bind fun a =>
  (liftSol (solve_2x1 M N fuel) a).bind fun a =>
  (liftSol (move_h M N ((N : Int) - 1)) a).bind fun a =>
  (liftSol (move_v M N ((M : Int) - 1)) a).bind fun a =>
  (liftSol (endgameLoop M N fuel) a).map fun a =>
  let a := report printout a
  (a.board, a.emitted, a.step)

/-- The 16-move log that `autosolve` emits on the already-solved 3×3 board. -/
def c7Log : List Char :=
  ['A', 'W', 'W', 'D', 'S', 'S', 'W', 'W', 'A', 'S', 'S', 'A', 'W', 'S', 'D', 'D']

theorem autosolve_solved3x3_run :
    autosolve 3 3 true 50 (solvedList 3 3) = some (solvedList 3 3, c7Log, 16) := by
  have h1 : last3Phase 3 3 50 ⟨solvedList 3 3, [], [], 0⟩ =
      some ⟨[1, 2, 3, 4, -1, 6, 7, 5, 8],
        ['A', 'W', 'W', 'D', 'S', 'S', 'W', 'W', 'A', 'S'], [], 0⟩ := by decide
  have h2 : solve_2x1 3 3 50 ([1, 2, 3, 4, -1, 6, 7, 5, 8],
        ['A', 'W', 'W', 'D', 'S', 'S', 'W', 'W', 'A', 'S']) =
      some ([1, 2, 3, 4, 5, 6, 7, -1, 8],
        ['A', 'W', 'W', 'D', 'S', 'S', 'W', 'W', 'A', 'S', 'S', 'A', 'W', 'S', 'D']) := by
    decide
  have h3 : move_h 3 3 (3 - 1) ([1, 2, 3, 4, 5, 6, 7, -1, 8],
        ['A', 'W', 'W', 'D', 'S', 'S', 'W', 'W', 'A', 'S', 'S', 'A', 'W', 'S', 'D']) =
      some ([1, 2, 3, 4, 5, 6, 7, 8, -1], c7Log) := by decide
  have h4 : move_v 3 3 (3 - 1) ([1, 2, 3, 4, 5, 6, 7, 8, -1], c7Log) =
      some ([1, 2, 3, 4, 5, 6, 7, 8, -1], c7Log) := by decide
  have h5 : endgameLoop 3 3 50 ([1, 2, 3, 4, 5, 6, 7, 8, -1], c7Log) =
      some ([1, 2, 3, 4, 5, 6, 7, 8, -1], c7Log) := by decide
  rw [autosolve]
  simp only [rowsLoop, Option.some_bind]
  rw [if_pos (by norm_num : (3 : Nat) ≤ 3), h1]
  simp only [Option.some_bind, liftSol, Nat.cast_ofNat]
  rw [h2]
  simp only [Option.map_some', Option.some_bind]
  rw [h3]
  simp only [Option.map_some', Option.some_bind]
  rw [h4]
  simp only [Option.map_some', Option.some_bind]
  rw [h5]
  decide

/-- Claim C7 (counterexample): `autosolve` on the already-solved 3×3 board
does not return step count 0 with an empty move log — it emits 16 moves and
returns step count 16, because the last-three-rows phase unconditionally
re-places the final tiles of row M−3 even when they are already correct. -/
theorem autosolve_solved3x3_nonzero :
    autosolve 3 3 true 50 (solvedList 3 3) = some (solvedList 3 3, c7Log, 16) ∧
    (16 : Nat) ≠ 0 ∧ c7Log ≠ [] := by
  refine ⟨autosolve_solved3x3_run, by decide, by decide⟩

/-- Claim C7 (amended): on the already-solved 3×3 board `autosolve` terminates
with the canonical solved board unchanged at the end, but with a 16-move log
and step count 16 (not 0): the moves it emits cancel out. -/
theorem autosolve_solved3x3_steps :
    autosolve 3 3 true 50 (solvedList 3 3) = some (solvedList 3 3, c7Log, 16) ∧
    c7Log.length = 16 :=
  ⟨autosolve_solved3x3_run, by decide⟩

/-- On the 2×3 board reached before the endgame of the divergent run, the
`A W D S` rotation cycles through three states, none of which satisfies the
exit condition, so the terminal loop never ends whatever the fuel. -/
theorem endgameLoop_2x3_diverges : ∀ (fuel : Nat) (sol : List Char),
    endgameLoop 2 3 fuel ([1, 2, 4, 5, 3, -1], sol) = none ∧
    endgameLoop 2 3 fuel ([1, 4, 3, 5, 2, -1], sol) = none ∧
    endgameLoop 2 3 fuel ([1, 3, 2, 5, 4, -1], sol) = none := by
  intro fuel
  induction fuel with
  | zero => exact fun sol => ⟨rfl, rfl, rfl⟩
  | succ f ih =>
      intro sol
      refine ⟨?_, ?_, ?_⟩
      · rw [endgameLoop, if_pos (by decide : endgameCond 2 3 [1, 2, 4, 5, 3, -1] = true)]
        have hb : applyMoves 2 3 [1, 2, 4, 5, 3, -1] ['A', 'W', 'D', 'S'] =
            some [1, 4, 3, 5, 2, -1] := by decide
        have ha : appendMoves 2 3 ['A', 'W', 'D', 'S'] ([1, 2, 4, 5, 3, -1], sol) =
            some ([1, 4, 3, 5, 2, -1], sol ++ ['A', 'W', 'D', 'S']) := by
          rw [appendMoves]
          dsimp only
          rw [hb, Option.map_some']
        rw [ha, Option.some_bind]
        exact (ih (sol ++ ['A', 'W', 'D', 'S'])).2.1
      · rw [endgameLoop, if_pos (by decide : endgameCond 2 3 [1, 4, 3, 5, 2, -1] = true)]
        have hb : applyMoves 2 3 [1, 4, 3, 5, 2, -1] ['A', 'W', 'D', 'S'] =
            some [1, 3, 2, 5, 4, -1] := by decide
        have ha : appendMoves 2 3 ['A', 'W', 'D', 'S'] ([1, 4, 3, 5, 2, -1], sol) =
            some ([1, 3, 2, 5, 4, -1], sol ++ ['A', 'W', 'D', 'S']) := by
          rw [appendMoves]
          dsimp only
          rw [hb, Option.map_some']
        rw [ha, Option.some_bind]
        exact (ih (sol ++ ['A', 'W', 'D', 'S'])).2.2
      · rw [endgameLoop, if_pos (by decide : endgameCond 2 3 [1, 3, 2, 5, 4, -1] = true)]
        have hb : applyMoves 2 3 [1, 3, 2, 5, 4, -1] ['A', 'W', 'D', 'S'] =
            some [1, 2, 4, 5, 3, -1] := by decide
        have ha : appendMoves 2 3 ['A', 'W', 'D', 'S'] ([1, 3, 2, 5, 4, -1], sol) =
            some ([1, 2, 4, 5, 3, -1], sol ++ ['A', 'W', 'D', 'S']) := by
          rw [appendMoves]
          dsimp only
          rw [hb, Option.map_some']
        rw [ha, Option.some_bind]
        exact (ih (sol ++ ['A', 'W', 'D', 'S'])).1

/-- Claim C1: the solvable 2×3 board [2, 4, blank, 1, 5, 3] passes the
solvability oracle and satisfies the permutation invariant, yet `autosolve`
never terminates on it: `solve_2x1` leaves tile 3 outside the terminal 2×2
block, and the endgame rotation loop runs forever (returns `none` for every
fuel). -/
theorem autosolve_2x3_diverges :
    can_solve 2 3 [2, 4, -1, 1, 5, 3] = true ∧
    PermInv 2 3 [2, 4, -1, 1, 5, 3] ∧
    ∀ (printout : Bool) (fuel : Nat),
      autosolve 2 3 printout fuel [2, 4, -1, 1, 5, 3] = none := by
  refine ⟨by decide, by decide, ?_⟩
  intro printout fuel
  have hS : solve_2x1 2 3 fuel ([2, 4, -1, 1, 5, 3], []) =
      some ([1, 2, 4, 5, -1, 3], ['A', 'S', 'W', 'A', 'S', 'D']) := rfl
  have hH : move_h 2 3 (3 - 1) ([1, 2, 4, 5, -1, 3], ['A', 'S', 'W', 'A', 'S', 'D']) =
      some ([1, 2, 4, 5, 3, -1], ['A', 'S', 'W', 'A', 'S', 'D', 'D']) := rfl
  have hV : move_v 2 3 (2 - 1) ([1, 2, 4, 5, 3, -1], ['A', 'S', 'W', 'A', 'S', 'D', 'D']) =
      some ([1, 2, 4, 5, 3, -1], ['A', 'S', 'W', 'A', 'S', 'D', 'D']) := rfl
  have hE := (endgameLoop_2x3_diverges fuel ['A', 'S', 'W', 'A', 'S', 'D', 'D']).1
  rw [autosolve]
  simp only [rowsLoop, Option.some_bind]
  rw [if_neg (by norm_num : ¬ (3 : Nat) ≤ 2)]
  simp only [Option.some_bind, liftSol, Nat.cast_ofNat]
  rw [hS]
  simp only [Option.map_some', Option.some_bind]
  rw [hH]
  simp only [Option.map_some', Option.some_bind]
  rw [hV]
  simp only [Option.map_some', Option.some_bind]
  rw [hE]
  rfl

/-- Board state after replaying the first `t` emitted moves. -/
def replayPrefix (M N : Nat) (p : List Int) (log : List Char) (t : Nat) :
    Option (List Int) :=
  applyMoves M N p (log.take t)

/-- A concrete scrambled 4×3 board on which `autosolve` succeeds. -/
def c5Board : List Int := [10, 6, 7, 5, 1, 2, 11, 4, 3, 8, 9, -1]

/-- The 60 moves `autosolve` emits on `c5Board` (row-0 segment, then the rest). -/
def c5Log : List Char :=
  ['A', 'A', 'W', 'W', 'D', 'W', 'A', 'S', 'S', 'D', 'W', 'W', 'D', 'S', 'S',
   'A', 'W', 'W', 'D', 'S', 'S', 'S', 'A', 'W', 'W', 'A', 'S', 'D', 'W', 'D',
   'S', 'S', 'W', 'W', 'A', 'S', 'S', 'A', 'W', 'S', 'D', 'D', 'W', 'A', 'S',
   'A', 'W', 'D', 'S', 'D', 'W', 'A', 'S', 'D', 'W', 'A', 'A', 'S', 'D', 'D']

theorem rowPhase_c5_run :
    rowPhase 4 3 true 100 0 ⟨c5Board, [], [], 0⟩ =
      some ⟨[1, 2, 3, 5, 7, -1, 4, 10, 6, 11, 8, 9], [], c5Log.take 20, 20⟩ := by
  have hc : colsLoop 4 3 100 0 1 0 ⟨c5Board, [], [], 0⟩ =
      some ⟨[1, 10, 7, -1, 6, 2, 5, 4, 3, 11, 8, 9],
        ['A', 'A', 'W', 'W', 'D', 'W', 'A', 'S'], [], 0⟩ := by decide
  have h12 : solve_1x2 4 3 0 ([1, 10, 7, -1, 6, 2, 5, 4, 3, 11, 8, 9],
        ['A', 'A', 'W', 'W', 'D', 'W', 'A', 'S']) =
      some ([1, 2, 3, 5, 7, -1, 4, 10, 6, 11, 8, 9],
        ['A', 'A', 'W', 'W', 'D', 'W', 'A', 'S', 'S', 'D', 'W', 'W', 'D', 'S',
         'S', 'A', 'W', 'W', 'D', 'S']) := by decide
  rw [rowPhase, hc]
  simp only [Option.some_bind, liftSol]
  rw [h12]
  simp only [Option.map_some', Option.some_bind]
  decide

theorem last3Phase_c5 :
    last3Phase 4 3 100 ⟨[1, 2, 3, 5, 7, -1, 4, 10, 6, 11, 8, 9], [], c5Log.take 20, 20⟩ =
      some ⟨[1, 2, 3, 4, 5, 6, 7, -1, 9, 11, 10, 8],
        ['S', 'S', 'A', 'W', 'W', 'A', 'S', 'D', 'W', 'D', 'S', 'S', 'W', 'W', 'A', 'S'],
        c5Log.take 20, 20⟩ := by
  have h1 : colsLoop 4 3 100 1 1 0
      ⟨[1, 2, 3, 5, 7, -1, 4, 10, 6, 11, 8, 9], [], c5Log.take 20, 20⟩ =
      some ⟨[1, 2, 3, 4, 5, 6, -1, 7, 9, 11, 10, 8],
        ['S', 'S', 'A', 'W', 'W', 'A', 'S'], c5Log.take 20, 20⟩ := by decide
  have h2 : placeLoop 4 3 1 1 6 100 ([1, 2, 3, 4, 5, 6, -1, 7, 9, 11, 10, 8],
        ['S', 'S', 'A', 'W', 'W', 'A', 'S']) =
      some ([1, 2, 3, 4, 6, -1, 7, 5, 9, 11, 10, 8],
        ['S', 'S', 'A', 'W', 'W', 'A', 'S', 'D', 'W', 'D']) := by decide
  have hf : find [1, 2, 3, 4, 6, -1, 7, 5, 9, 11, 10, 8] 5 = 7 := by decide
  have h3 : placeLoop 4 3 2 1 5 100 ([1, 2, 3, 4, 6, -1, 7, 5, 9, 11, 10, 8],
        ['S', 'S', 'A', 'W', 'W', 'A', 'S', 'D', 'W', 'D']) =
      some ([1, 2, 3, 4, 6, -1, 7, 5, 9, 11, 10, 8],
        ['S', 'S', 'A', 'W', 'W', 'A', 'S', 'D', 'W', 'D']) := by decide
  have h4 : move_v 4 3 3 ([1, 2, 3, 4, 6, -1, 7, 5, 9, 11, 10, 8],
        ['S', 'S', 'A', 'W', 'W', 'A', 'S', 'D', 'W', 'D']) =
      some ([1, 2, 3, 4, 6, 9, 7, 5, 8, 11, 10, -1],
        ['S', 'S', 'A', 'W', 'W', 'A', 'S', 'D', 'W', 'D', 'S', 'S']) := by decide
  have h5 : move_h 4 3 2 ([1, 2, 3, 4, 6, 9, 7, 5, 8, 11, 10, -1],
        ['S', 'S', 'A', 'W', 'W', 'A', 'S', 'D', 'W', 'D', 'S', 'S']) =
      some ([1, 2, 3, 4, 6, 9, 7, 5, 8, 11, 10, -1],
        ['S', 'S', 'A', 'W', 'W', 'A', 'S', 'D', 'W', 'D', 'S', 'S']) := by decide
  have h6 : move_v 4 3 1 ([1, 2, 3, 4, 6, 9, 7, 5, 8, 11, 10, -1],
        ['S', 'S', 'A', 'W', 'W', 'A', 'S', 'D', 'W', 'D', 'S', 'S']) =
      some ([1, 2, 3, 4, 6, -1, 7, 5, 9, 11, 10, 8],
        ['S', 'S', 'A', 'W', 'W', 'A', 'S', 'D', 'W', 'D', 'S', 'S', 'W', 'W']) := by decide
  have h7 : auto_change 4 3 'A' ([1, 2, 3, 4, 6, -1, 7, 5, 9, 11, 10, 8],
        ['S', 'S', 'A', 'W', 'W', 'A', 'S', 'D', 'W', 'D', 'S', 'S', 'W', 'W']) =
      some ([1, 2, 3, 4, -1, 6, 7, 5, 9, 11, 10, 8],
        ['S', 'S', 'A', 'W', 'W', 'A', 'S', 'D', 'W', 'D', 'S', 'S', 'W', 'W', 'A']) := by
    decide
  have h8 : auto_change 4 3 'S' ([1, 2, 3, 4, -1, 6, 7, 5, 9, 11, 10, 8],
        ['S', 'S', 'A', 'W', 'W', 'A', 'S', 'D', 'W', 'D', 'S', 'S', 'W', 'W', 'A']) =
      some ([1, 2, 3, 4, 5, 6, 7, -1, 9, 11, 10, 8],
        ['S', 'S', 'A', 'W', 'W', 'A', 'S', 'D', 'W', 'D', 'S', 'S', 'W', 'W', 'A', 'S']) := by
    decide
  rw [last3Phase]
  simp only [Nat.cast_ofNat]
  rw [h1]
  simp only [Option.some_bind, liftSol, Nat.cast_ofNat]
  norm_num
  rw [h2]
  simp only [Option.map_some', Option.some_bind, hf]
  rw [if_neg (by norm_num : ¬((7 : Nat) / 3 = 1 ∧ (7 : Nat) % 3 = 2))]
  rw [h3]
  simp only [Option.map_some', Option.some_bind]
  rw [h4]
  simp only [Option.map_some', Option.some_bind]
  rw [h5]
  simp only [Option.map_some', Option.some_bind]
  rw [h6]
  simp only [Option.map_some', Option.some_bind]
  rw [h7]
  simp only [Option.map_some', Option.some_bind]
  rw [h8]
  rfl

theorem autosolve_c5_run :
    autosolve 4 3 true 100 c5Board = some (solvedList 4 3, c5Log, 60) := by
  have hs21 : solve_2x1 4 3 100 ([1, 2, 3, 4, 5, 6, 7, -1, 9, 11, 10, 8],
        ['S', 'S', 'A', 'W', 'W', 'A', 'S', 'D', 'W', 'D', 'S', 'S', 'W', 'W', 'A', 'S']) =
      some ([1, 2, 3, 4, 5, 6, 7, 8, 9, 10, -1, 11],
        ['S', 'S', 'A', 'W', 'W', 'A', 'S', 'D', 'W', 'D', 'S', 'S', 'W', 'W', 'A', 'S',
         'S', 'A', 'W', 'S', 'D', 'D', 'W', 'A', 'S', 'A', 'W', 'D', 'S', 'D', 'W', 'A',
         'S', 'D', 'W', 'A', 'A', 'S', 'D']) := by decide
  have hmh : move_h 4 3 (3 - 1) ([1, 2, 3, 4, 5, 6, 7, 8, 9, 10, -1, 11],
        ['S', 'S', 'A', 'W', 'W', 'A', 'S', 'D', 'W', 'D', 'S', 'S', 'W', 'W', 'A', 'S',
         'S', 'A', 'W', 'S', 'D', 'D', 'W', 'A', 'S', 'A', 'W', 'D', 'S', 'D', 'W', 'A',
         'S', 'D', 'W', 'A', 'A', 'S', 'D']) =
      some ([1, 2, 3, 4, 5, 6, 7, 8, 9, 10, 11, -1], c5Log.drop 20) := by
    decide
  have hmv : move_v 4 3 (4 - 1) ([1, 2, 3, 4, 5, 6, 7, 8, 9, 10, 11, -1], c5Log.drop 20) =
      some ([1, 2, 3, 4, 5, 6, 7, 8, 9, 10, 11, -1], c5Log.drop 20) := by decide
  have heg : endgameLoop 4 3 100 ([1, 2, 3, 4, 5, 6, 7, 8, 9, 10, 11, -1], c5Log.drop 20) =
      some ([1, 2, 3, 4, 5, 6, 7, 8, 9, 10, 11, -1], c5Log.drop 20) := by decide
  rw [autosolve]
  simp only [rowsLoop, Option.some_bind]
  rw [rowPhase_c5_run]
  simp only [rowsLoop, Option.some_bind]
  rw [if_pos (by norm_num : (3 : Nat) ≤ 4), last3Phase_c5]
  simp only [Option.some_bind, liftSol, Nat.cast_ofNat]
  rw [hs21]
  simp only [Option.map_some', Option.some_bind]
  rw [hmh]
  simp only [Option.map_some', Option.some_bind]
  rw [hmv]
  simp only [Option.map_some', Option.some_bind]
  rw [heg]
  decide

/-- Claim C5 (counterexample): on the 4×3 board `c5Board`, `autosolve`
succeeds, but at a point during the run where rows 0..1 all hold their target
values (after 27 emitted moves), a later operation disturbs them (after 29
moves cell of rows 0..1 no longer all match): the literal any-point reading of
the finalized-region invariant is false. -/
theorem autosolve_c5_transient_disturbed :
    autosolve 4 3 true 100 c5Board = some (solvedList 4 3, c5Log, 60) ∧
    (replayPrefix 4 3 c5Board c5Log 27).map (fun q => cellsOk q 0 5) = some true ∧
    (replayPrefix 4 3 c5Board c5Log 29).map (fun q => cellsOk q 0 5) = some false :=
  ⟨autosolve_c5_run, by decide, by decide⟩

/-- Claim C5 (amended): the protection starts at the Orchestrator's successful
end-of-row check, not at any transient moment when rows 0..i happen to hold
their targets: on the counterexample run the row-0 phase reports exactly the
first 20 moves with the row check passed (sol cleared, step 20), and row 0
then stays at its target values at every later point of the run. -/
theorem autosolve_c5_checked_row_stable :
    autosolve 4 3 true 100 c5Board = some (solvedList 4 3, c5Log, 60) ∧
    rowPhase 4 3 true 100 0 ⟨c5Board, [], [], 0⟩ =
      some ⟨[1, 2, 3, 5, 7, -1, 4, 10, 6, 11, 8, 9], [], c5Log.take 20, 20⟩ ∧
    ((List.range 41).all fun t =>
      ((replayPrefix 4 3 c5Board c5Log (20 + t)).map (fun q => cellsOk q 0 2)).getD false)
      = true :=
  ⟨autosolve_c5_run, rowPhase_c5_run, by decide⟩

theorem foldl_count_eq_length (l : List Char) (k : Nat) :
    l.foldl (fun n _ => n + 1) k = k + l.length := by
  induction l generalizing k with
  | nil => simp
  | cons c l ih => simp [List.foldl_cons, ih]; omega

/-- Printing each symbol while counting steps adds exactly `sol.size()`. -/
theorem stepAdd_printout_irrel : stepAdd true = stepAdd false := by
  funext sol
  simp [stepAdd, foldl_count_eq_length]

theorem report_printout_irrel : report true = report false := by
  funext a
  simp [report, stepAdd_printout_irrel]

theorem rowPhase_printout_irrel (M N fuel i : Nat) (a : AutoState) :
    rowPhase M N true fuel i a = rowPhase M N false fuel i a := by
  simp only [rowPhase, report_printout_irrel]

theorem rowsLoop_printout_irrel (M N fuel : Nat) :
    ∀ (count i : Nat) (a : AutoState),
      rowsLoop M N true fuel count i a = rowsLoop M N false fuel count i a := by
  intro count
  induction count with
  | zero => intro i a; rfl
  | succ n ih =>
      intro i a
      rw [rowsLoop, rowsLoop, rowPhase_printout_irrel]
      cases h : rowPhase M N false fuel i a with
      | none => rfl
      | some a' => simp only [Option.some_bind, ih]

/-- Claim C9: the global `printout` flag is purely observational — runs of
`autosolve` with rendering on and off perform the same board mutations, report
the same move sequence, end in the same final board, and return the same step
count. -/
theorem autosolve_printout_irrelevant (M N fuel : Nat) (p : List Int) :
    autosolve M N true fuel p = autosolve M N false fuel p := by
  rw [autosolve, autosolve, rowsLoop_printout_irrel]
  simp only [report_printout_irrel]

/-- Replay invariant: replaying the pending log from the root board `p₀`
reproduces the current board. -/
def Sync (M N : Nat) (p₀ : List Int) (st : SolState) : Prop :=
  applyMoves M N p₀ st.2 = some st.1

/-- A routine preserves the replay invariant: it only mutates the board by
primitive moves that it also logs. -/
def SyncPres (M N : Nat) (f : SolState → Option SolState) : Prop :=
  ∀ (p₀ : List Int) (st st' : SolState), Sync M N p₀ st → f st = some st' →
    Sync M N p₀ st'

theorem applyMoves_nil (M N : Nat) (p : List Int) : applyMoves M N p [] = some p := rfl

theorem applyMoves_cons (M N : Nat) (p : List Int) (c : Char) (s : List Char) :
    applyMoves M N p (c :: s) = (change M N p c).bind fun q => applyMoves M N q s := by
  simp [applyMoves, List.foldlM_cons]

theorem applyMoves_append (M N : Nat) (p : List Int) (s t : List Char) :
    applyMoves M N p (s ++ t) =
      (applyMoves M N p s).bind fun q => applyMoves M N q t := by
  induction s generalizing p with
  | nil => simp [applyMoves_nil]
  | cons c s ih =>
      rw [List.cons_append, applyMoves_cons, applyMoves_cons]
      cases change M N p c with
      | none => rfl
      | some q => simp only [Option.some_bind, ih]

theorem applyMoves_singleton (M N : Nat) (p : List Int) (c : Char) :
    applyMoves M N p [c] = change M N p c := by
  rw [applyMoves_cons]
  cases change M N p c with
  | none => rfl
  | some q => rfl

theorem syncPres_some (M N : Nat) : SyncPres M N some := by
  intro p₀ st st' hs h
  cases h
  exact hs

theorem syncPres_auto_change (M N : Nat) (c : Char) :
    SyncPres M N (auto_change M N c) := by
  intro p₀ st st' hs h
  unfold auto_change at h
  rcases Option.map_eq_some'.mp h with ⟨q, hq, hst⟩
  subst hst
  show applyMoves M N p₀ (st.2 ++ [c]) = some q
  rw [applyMoves_append, hs, Option.some_bind, applyMoves_singleton]
  exact hq

theorem syncPres_appendMoves (M N : Nat) (s : List Char) :
    SyncPres M N (appendMoves M N s) := by
  intro p₀ st st' hs h
  unfold appendMoves at h
  rcases Option.map_eq_some'.mp h with ⟨q, hq, hst⟩
  subst hst
  show applyMoves M N p₀ (st.2 ++ s) = some q
  rw [applyMoves_append, hs, Option.some_bind]
  exact hq

theorem syncPres_repChange (M N : Nat) (c : Char) :
    ∀ n, SyncPres M N (repChange M N c n) := by
  intro n
  induction n with
  | zero => exact fun p₀ st st' hs h => by cases h; exact hs
  | succ n ih =>
      intro p₀ st st' hs h
      rw [repChange] at h
      rcases Option.bind_eq_some.mp h with ⟨st₁, h₁, h₂⟩
      exact ih p₀ st₁ st' (syncPres_auto_change M N c p₀ st st₁ hs h₁) h₂

theorem syncPres_repAppend (M N : Nat) (s : List Char) :
    ∀ n, SyncPres M N (repAppend M N s n) := by
  intro n
  induction n with
  | zero => exact fun p₀ st st' hs h => by cases h; exact hs
  | succ n ih =>
      intro p₀ st st' hs h
      rw [repAppend] at h
      rcases Option.bind_eq_some.mp h with ⟨st₁, h₁, h₂⟩
      exact ih p₀ st₁ st' (syncPres_appendMoves M N s p₀ st st₁ hs h₁) h₂

theorem syncPres_move_h (M N : Nat) (c : Int) : SyncPres M N (move_h M N c) := by
  intro p₀ st st' hs h
  unfold move_h at h
  dsimp only at h
  split_ifs at h with hd
  · exact syncPres_repChange M N 'A' _ p₀ st st' hs h
  · exact syncPres_repChange M N 'D' _ p₀ st st' hs h

theorem syncPres_move_v (M N : Nat) (r : Int) : SyncPres M N (move_v M N r) := by
  intro p₀ st st' hs h
  unfold move_v at h
  dsimp only at h
  split_ifs at h with hd
  · exact syncPres_repChange M N 'W' _ p₀ st st' hs h
  · exact syncPres_repChange M N 'S' _ p₀ st st' hs h

theorem syncPres_moveDrLoop (M N : Nat) (num : Int) (j : Nat) :
    ∀ n ii, SyncPres M N (moveDrLoop M N num j n ii) := by
  intro n
  induction n with
  | zero => exact fun ii p₀ st st' hs h => by cases h; exact hs
  | succ n ih =>
      intro ii p₀ st st' hs h
      rw [moveDrLoop] at h
      rcases Option.bind_eq_some.mp h with ⟨st₁, h₁, h₂⟩
      have hs₁ := syncPres_appendMoves M N _ p₀ st st₁ hs h₁
      split_ifs at h₂ with hdone
      · cases h₂
        exact hs₁
      · exact ih (ii + 1) p₀ st₁ st' hs₁ h₂

def movePayload : SolState ⊕ SolState → SolState
  | Sum.inl st => st
  | Sum.inr st => st

/-- All `some` outcomes of an optional state satisfy the replay invariant. -/
def OptOk (M N : Nat) (p₀ : List Int) (x : Option SolState) : Prop :=
  ∀ st', x = some st' → Sync M N p₀ st'

/-- All `some` outcomes of a `move`-body computation satisfy the replay
invariant, whether they exit early or fall through. -/
def MOk (M N : Nat) (p₀ : List Int) (x : MoveM) : Prop :=
  ∀ r, x = some r → Sync M N p₀ (movePayload r)

theorem syncPres_of_ok (M N : Nat) (f : SolState → Option SolState)
    (h : ∀ p₀ st, Sync M N p₀ st → OptOk M N p₀ (f st)) : SyncPres M N f :=
  fun p₀ st st' hs hf => h p₀ st hs st' hf

theorem optOk_of_pres {M N : Nat} {f : SolState → Option SolState}
    (hf : SyncPres M N f) {p₀ : List Int} {st : SolState} (hs : Sync M N p₀ st) :
    OptOk M N p₀ (f st) :=
  fun st' h => hf p₀ st st' hs h

theorem optOk_some {M N : Nat} {p₀ : List Int} {st : SolState}
    (hs : Sync M N p₀ st) : OptOk M N p₀ (some st) :=
  fun st' h => by cases h; exact hs

theorem optOk_bind {M N : Nat} {p₀ : List Int} {x : Option SolState}
    {k : SolState → Option SolState} (hx : OptOk M N p₀ x)
    (hk : ∀ st, Sync M N p₀ st → OptOk M N p₀ (k st)) : OptOk M N p₀ (x.bind k) := by
  intro st' h
  rcases Option.bind_eq_some.mp h with ⟨a, ha, hb⟩
  exact hk a (hx a ha) st' hb

theorem optOk_ite {M N : Nat} {p₀ : List Int} (c : Prop) [Decidable c]
    {x y : Option SolState} (hx : OptOk M N p₀ x) (hy : OptOk M N p₀ y) :
    OptOk M N p₀ (if c then x else y) := by
  split_ifs
  · exact hx
  · exact hy

theorem optOk_bind_pair {M N : Nat} {p₀ : List Int} {α : Type}
    {x : Option (SolState × α)} {k : SolState × α → Option SolState}
    (hx : ∀ v, x = some v → Sync M N p₀ v.1)
    (hk : ∀ v, Sync M N p₀ v.1 → OptOk M N p₀ (k v)) : OptOk M N p₀ (x.bind k) := by
  intro st' h
  rcases Option.bind_eq_some.mp h with ⟨a, ha, hb⟩
  exact hk a (hx a ha) st' hb

theorem mok_contM {M N : Nat} {p₀ : List Int} {st : SolState}
    (hs : Sync M N p₀ st) : MOk M N p₀ (contM st) :=
  fun r h => by cases h; exact hs

theorem mok_exitM {M N : Nat} {p₀ : List Int} {st : SolState}
    (hs : Sync M N p₀ st) : MOk M N p₀ (exitM st) :=
  fun r h => by cases h; exact hs

theorem mok_checkDone {M N : Nat} {p₀ : List Int} (idx : Nat) (num : Int)
    {st : SolState} (hs : Sync M N p₀ st) : MOk M N p₀ (checkDone idx num st) := by
  unfold checkDone
  split_ifs
  · exact mok_exitM hs
  · exact mok_contM hs

theorem mok_thenM {M N : Nat} {p₀ : List Int} {x : MoveM} {k : SolState → MoveM}
    (hx : MOk M N p₀ x) (hk : ∀ st, Sync M N p₀ st → MOk M N p₀ (k st)) :
    MOk M N p₀ (thenM x k) := by
  intro r h
  unfold thenM at h
  rcases Option.bind_eq_some.mp h with ⟨s, hsx, hb⟩
  cases s with
  | inl st => cases hb; exact hx _ hsx
  | inr st => exact hk st (hx _ hsx) r hb

theorem mok_liftM {M N : Nat} {p₀ : List Int} {x : Option SolState}
    {k : SolState → MoveM} (hx : OptOk M N p₀ x)
    (hk : ∀ st, Sync M N p₀ st → MOk M N p₀ (k st)) : MOk M N p₀ (liftM x k) := by
  intro r h
  unfold liftM at h
  rcases Option.bind_eq_some.mp h with ⟨s, hsx, hb⟩
  exact hk s (hx s hsx) r hb

theorem mok_ite {M N : Nat} {p₀ : List Int} (c : Prop) [Decidable c] {x y : MoveM}
    (hx : MOk M N p₀ x) (hy : MOk M N p₀ y) : MOk M N p₀ (if c then x else y) := by
  split_ifs
  · exact hx
  · exact hy

theorem optOk_runM {M N : Nat} {p₀ : List Int} {x : MoveM} (hx : MOk M N p₀ x) :
    OptOk M N p₀ (runM x) := by
  intro st' h
  unfold runM at h
  rcases Option.map_eq_some'.mp h with ⟨r, hr, hst⟩
  have hp := hx r hr
  cases r with
  | inl st => cases hst; exact hp
  | inr st => cases hst; exact hp

/-- The shared `auto_change`–`checkDone`–`repAppend` tail of the four column
branches of `move`. -/
theorem mok_colTail {M N : Nat} {p₀ : List Int} (ch : Char) (s : List Char)
    (n idx : Nat) (num : Int) {st : SolState} (hs : Sync M N p₀ st) :
    MOk M N p₀ (liftM (auto_change M N ch st) fun st4 =>
      thenM (checkDone idx num st4) fun st4 =>
      liftM (repAppend M N s n st4) contM) := by
  refine mok_liftM (optOk_of_pres (syncPres_auto_change M N ch) hs) ?_
  intro st4 hs4
  refine mok_thenM (mok_checkDone _ _ hs4) ?_
  intro st4 hs4
  exact mok_liftM (optOk_of_pres (syncPres_repAppend M N s n) hs4)
    fun st5 hs5 => mok_contM hs5

theorem syncPres_move (r c i j M N : Nat) : SyncPres M N (move r c i j M N) := by
  refine syncPres_of_ok M N _ ?_
  intro p₀ st hs
  unfold move
  refine optOk_runM ?_
  refine mok_thenM ?_ ?_
  · refine mok_ite _ ?_ (mok_contM hs)
    refine mok_liftM
      (optOk_ite _ (optOk_of_pres (syncPres_auto_change M N 'S') hs) (optOk_some hs)) ?_
    intro st1 hs1
    refine mok_thenM (mok_checkDone _ _ hs1) ?_
    intro st1 hs1
    refine mok_liftM
      (optOk_ite _ (optOk_of_pres (syncPres_move_h M N _) hs1)
        (optOk_of_pres (syncPres_move_h M N _) hs1)) ?_
    intro st2 hs2
    refine mok_thenM (mok_checkDone _ _ hs2) ?_
    intro st2 hs2
    refine mok_liftM (optOk_of_pres (syncPres_move_v M N _) hs2) ?_
    intro st3 hs3
    refine mok_thenM (mok_checkDone _ _ hs3) ?_
    intro st3 hs3
    exact mok_ite _
      (mok_ite _ (mok_colTail _ _ _ _ _ hs3) (mok_colTail _ _ _ _ _ hs3))
      (mok_ite _ (mok_colTail _ _ _ _ _ hs3) (mok_colTail _ _ _ _ _ hs3))
  · intro stA hsA
    refine mok_ite _ ?_ (mok_contM hsA)
    refine mok_thenM ?_ ?_
    · refine mok_ite _ (mok_ite _ ?_ ?_) (mok_ite _ ?_ ?_)
      · refine mok_liftM (optOk_of_pres (syncPres_move_v M N _) hsA) ?_
        intro s5 h5
        refine mok_thenM (mok_checkDone _ _ h5) ?_
        intro s5 h5
        refine mok_liftM (optOk_of_pres (syncPres_move_h M N _) h5) ?_
        intro s5 h5
        exact mok_checkDone _ _ h5
      · refine mok_liftM (optOk_of_pres (syncPres_move_v M N _) hsA) ?_
        intro s5 h5
        refine mok_thenM (mok_checkDone _ _ h5) ?_
        intro s5 h5
        refine mok_liftM (optOk_of_pres (syncPres_move_h M N _) h5) ?_
        intro s5 h5
        refine mok_thenM (mok_checkDone _ _ h5) ?_
        intro s5 h5
        refine mok_liftM (optOk_of_pres (syncPres_move_v M N _) h5) ?_
        intro s5 h5
        refine mok_thenM (mok_checkDone _ _ h5) ?_
        intro s5 h5
        refine mok_liftM (optOk_of_pres (syncPres_move_h M N _) h5) ?_
        intro s5 h5
        exact mok_checkDone _ _ h5
      · refine mok_thenM (mok_ite _ ?_ ?_) ?_
        · refine mok_liftM (optOk_of_pres (syncPres_appendMoves M N _) hsA) ?_
          intro s5 h5
          exact mok_checkDone _ _ h5
        · refine mok_liftM (optOk_of_pres (syncPres_auto_change M N 'W') hsA) ?_
          intro s5 h5
          refine mok_thenM (mok_checkDone _ _ h5) ?_
          intro s5 h5
          refine mok_liftM (optOk_of_pres (syncPres_auto_change M N 'D') h5) ?_
          intro s5 h5
          exact mok_checkDone _ _ h5
        · intro st6 hs6
          refine mok_liftM (optOk_of_pres (syncPres_auto_change M N 'S') hs6) ?_
          intro s6 h6
          exact mok_checkDone _ _ h6
      · refine mok_liftM (optOk_of_pres (syncPres_auto_change M N 'W') hsA) ?_
        intro s5 h5
        refine mok_thenM (mok_checkDone _ _ h5) ?_
        intro s5 h5
        refine mok_liftM (optOk_of_pres (syncPres_auto_change M N 'A') h5) ?_
        intro s5 h5
        exact mok_checkDone _ _ h5
    · intro stB hsB
      refine mok_liftM (optOk_of_pres (syncPres_auto_change M N 'S') hsB) ?_
      intro stC hsC
      exact mok_liftM (optOk_of_pres (syncPres_moveDrLoop M N _ j _ _) hsC)
        fun s5 h5 => mok_contM h5

theorem syncPres_placeLoop (M N i j : Nat) (num : Int) :
    ∀ fuel, SyncPres M N (placeLoop M N i j num fuel) := by
  intro fuel
  induction fuel with
  | zero =>
      intro p₀ st st' hs h
      rw [placeLoop] at h
      split_ifs at h
      cases h
      exact hs
  | succ f ih =>
      intro p₀ st st' hs h
      rw [placeLoop] at h
      split_ifs at h
      · cases h; exact hs
      · rcases Option.bind_eq_some.mp h with ⟨s1, h1, h2⟩
        exact ih p₀ s1 st' (syncPres_move _ _ _ _ _ _ p₀ st s1 hs h1) h2

theorem syncPres_solve2x1Loop (M N tgt : Nat) :
    ∀ fuel c1, SyncPres M N (solve2x1Loop M N tgt fuel c1) := by
  intro fuel
  induction fuel with
  | zero =>
      intro c1 p₀ st st' hs h
      rw [solve2x1Loop] at h
      split_ifs at h
      cases h
      exact hs
  | succ f ih =>
      intro c1 p₀ st st' hs h
      rw [solve2x1Loop] at h
      split_ifs at h
      · cases h; exact hs
      · rcases Option.bind_eq_some.mp h with ⟨s1, h1, h2⟩
        exact ih (c1 - 1) p₀ s1 st' (syncPres_appendMoves M N _ p₀ st s1 hs h1) h2

theorem syncPres_endgameLoop (M N : Nat) :
    ∀ fuel, SyncPres M N (endgameLoop M N fuel) := by
  intro fuel
  induction fuel with
  | zero =>
      intro p₀ st st' hs h
      rw [endgameLoop] at h
      split_ifs at h
      cases h
      exact hs
  | succ f ih =>
      intro p₀ st st' hs h
      rw [endgameLoop] at h
      split_ifs at h
      · rcases Option.bind_eq_some.mp h with ⟨s1, h1, h2⟩
        exact ih p₀ s1 st' (syncPres_appendMoves M N _ p₀ st s1 hs h1) h2
      · cases h; exact hs

theorem syncPres_solve_1x2 (M N i : Nat) : SyncPres M N (solve_1x2 M N i) := by
  refine syncPres_of_ok M N _ ?_
  intro p₀ st hs
  unfold solve_1x2
  refine optOk_bind (optOk_ite _ (optOk_of_pres (syncPres_auto_change M N 'S') hs)
    (optOk_some hs)) ?_
  intro s1 h1
  dsimp only
  refine optOk_bind (optOk_ite _ ?_ (optOk_some h1)) ?_
  · exact optOk_bind (optOk_of_pres (syncPres_move_v M N _) h1) fun s2 h2 =>
      optOk_bind (optOk_of_pres (syncPres_move_h M N _) h2) fun s3 h3 =>
      optOk_bind (optOk_of_pres (syncPres_move_v M N _) h3) fun s4 h4 =>
      optOk_bind (optOk_of_pres (syncPres_auto_change M N 'W') h4) fun s5 h5 =>
      optOk_ite _ (optOk_of_pres (syncPres_repAppend M N _ _) h5)
        (optOk_of_pres (syncPres_repAppend M N _ _) h5)
  · intro s2 h2
    dsimp only
    refine optOk_bind (optOk_ite _ (optOk_of_pres (syncPres_auto_change M N 'S') h2)
      (optOk_some h2)) ?_
    intro s3 h3
    refine optOk_bind_pair ?_ ?_
    · intro v hv
      split at hv
      · rcases Option.bind_eq_some.mp hv with ⟨a1, ha1, hv⟩
        have g1 : Sync M N p₀ a1 := syncPres_move_h M N _ p₀ s3 a1 h3 ha1
        rcases Option.bind_eq_some.mp hv with ⟨a2, ha2, hv⟩
        have g2 : Sync M N p₀ a2 := syncPres_move_v M N _ p₀ a1 a2 g1 ha2
        rcases Option.bind_eq_some.mp hv with ⟨a3, ha3, hv⟩
        have g3 : Sync M N p₀ a3 := syncPres_auto_change M N 'A' p₀ a2 a3 g2 ha3
        rcases Option.map_eq_some'.mp hv with ⟨a4, ha4, hva⟩
        subst hva
        split at ha4
        · exact syncPres_repAppend M N _ _ p₀ a3 a4 g3 ha4
        · exact syncPres_repAppend M N _ _ p₀ a3 a4 g3 ha4
      · cases hv; exact h3
    · intro stc hstc
      dsimp only
      refine optOk_bind (optOk_ite _ ?_ (optOk_some hstc)) ?_
      · refine optOk_bind (optOk_ite _ ?_ (optOk_some hstc)) ?_
        · exact optOk_bind (optOk_of_pres (syncPres_move_h M N _) hstc) fun s4 h4 =>
            optOk_of_pres (syncPres_move_v M N _) h4
        · intro s4 h4
          refine optOk_ite _ (optOk_of_pres (syncPres_appendMoves M N _) h4) ?_
          exact optOk_bind (optOk_of_pres (syncPres_auto_change M N 'W') h4) fun s5 h5 =>
            optOk_bind (optOk_of_pres (syncPres_auto_change M N 'D') h5) fun s6 h6 =>
            optOk_bind (optOk_of_pres (syncPres_auto_change M N 'S') h6) fun s7 h7 =>
            optOk_of_pres (syncPres_repAppend M N _ _) h7
      · intro s4 h4
        dsimp only
        refine optOk_bind (optOk_ite _ ?_ ?_) ?_
        · exact optOk_bind (optOk_of_pres (syncPres_move_h M N _) h4) fun s5 h5 =>
            optOk_bind (optOk_of_pres (syncPres_move_v M N _) h5) fun s6 h6 =>
            optOk_of_pres (syncPres_appendMoves M N _) h6
        · refine optOk_bind_pair ?_ ?_
          · intro v hv
            split at hv
            · rcases Option.bind_eq_some.mp hv with ⟨a1, ha1, hv⟩
              have g1 : Sync M N p₀ a1 := by
                split at ha1
                · exact syncPres_auto_change M N 'S' p₀ s4 a1 h4 ha1
                · cases ha1; exact h4
              rcases Option.bind_eq_some.mp hv with ⟨a2, ha2, hv⟩
              have g2 : Sync M N p₀ a2 := by
                split at ha2
                · exact (optOk_bind (optOk_of_pres (syncPres_move_h M N _) g1)
                    (fun s h => optOk_of_pres (syncPres_move_v M N _) h)) a2 ha2
                · split at ha2
                  · exact (optOk_bind (optOk_of_pres (syncPres_move_v M N _) g1)
                      (fun s h => optOk_bind (optOk_of_pres (syncPres_move_h M N _) h)
                        (fun s h => optOk_of_pres (syncPres_move_v M N _) h))) a2 ha2
                  · exact (optOk_bind (optOk_of_pres (syncPres_move_h M N _) g1)
                      (fun s h => optOk_bind (optOk_of_pres (syncPres_move_v M N _) h)
                        (fun s h => optOk_bind (optOk_of_pres (syncPres_move_h M N _) h)
                          (fun s h => optOk_of_pres (syncPres_move_v M N _) h)))) a2 ha2
              rcases Option.bind_eq_some.mp hv with ⟨a3, ha3, hv⟩
              have g3 : Sync M N p₀ a3 := syncPres_auto_change M N 'A' p₀ a2 a3 g2 ha3
              rcases Option.map_eq_some'.mp hv with ⟨a4, ha4, hva⟩
              subst hva
              split at ha4
              · exact syncPres_repAppend M N _ _ p₀ a3 a4 g3 ha4
              · exact syncPres_repAppend M N _ _ p₀ a3 a4 g3 ha4
            · cases hv; exact h4
          · intro v hv
            dsimp only
            refine optOk_ite _ ?_ (optOk_some hv)
            refine optOk_bind (optOk_ite _ ?_ (optOk_some hv)) ?_
            · exact optOk_bind (optOk_of_pres (syncPres_move_h M N _) hv) fun s5 h5 =>
                optOk_of_pres (syncPres_move_v M N _) h5
            · intro s5 h5
              exact optOk_bind (optOk_of_pres (syncPres_auto_change M N 'W') h5) fun s6 h6 =>
                optOk_bind (optOk_of_pres (syncPres_auto_change M N 'D') h6) fun s7 h7 =>
                optOk_bind (optOk_of_pres (syncPres_auto_change M N 'S') h7) fun s8 h8 =>
                optOk_of_pres (syncPres_repAppend M N _ _) h8
        · intro s5 h5
          exact optOk_bind (optOk_of_pres (syncPres_move_h M N _) h5) fun s6 h6 =>
            optOk_bind (optOk_of_pres (syncPres_move_v M N _) h6) fun s7 h7 =>
            optOk_of_pres (syncPres_appendMoves M N _) h7

theorem syncPres_solve2x1Col (M N fuel i : Nat) : SyncPres M N (solve2x1Col M N fuel i) := by
  refine syncPres_of_ok M N _ ?_
  intro p₀ st hs
  unfold solve2x1Col
  dsimp only
  refine optOk_bind (optOk_ite _ ?_ (optOk_some hs)) ?_
  · exact optOk_bind (optOk_of_pres (syncPres_move_v M N _) hs) fun s1 h1 =>
      optOk_bind (optOk_of_pres (syncPres_move_h M N _) h1) fun s2 h2 =>
      optOk_of_pres (syncPres_auto_change M N 'W') h2
  · intro s1 h1
    refine optOk_bind (optOk_ite _ ?_ (optOk_some h1)) ?_
    · exact optOk_bind (optOk_of_pres (syncPres_move_v M N _) h1) fun s2 h2 =>
        optOk_bind (optOk_of_pres (syncPres_move_h M N _) h2) fun s3 h3 =>
        optOk_bind (optOk_of_pres (syncPres_move_v M N _) h3) fun s4 h4 =>
        optOk_bind (optOk_of_pres (syncPres_auto_change M N 'D') h4) fun s5 h5 =>
        optOk_of_pres (syncPres_solve2x1Loop M N i fuel _) h5
    · intro s2 h2
      dsimp only
      refine optOk_bind (optOk_ite _ ?_ (optOk_ite _ ?_ ?_)) ?_
      · exact optOk_bind (optOk_of_pres (syncPres_move_v M N _) h2) fun s3 h3 =>
          optOk_bind (optOk_of_pres (syncPres_move_h M N _) h3) fun s4 h4 =>
          optOk_of_pres (syncPres_appendMoves M N _) h4
      · exact optOk_of_pres (syncPres_appendMoves M N _) h2
      · refine optOk_bind (optOk_ite _ ?_ (optOk_some h2)) ?_
        · exact optOk_bind (optOk_of_pres (syncPres_move_h M N _) h2) fun s3 h3 =>
            optOk_bind (optOk_of_pres (syncPres_move_v M N _) h3) fun s4 h4 =>
            optOk_bind (optOk_of_pres (syncPres_move_h M N _) h4) fun s5 h5 =>
            optOk_of_pres (syncPres_auto_change M N 'W') h5
        · intro s3 h3
          refine optOk_ite _ ?_ (optOk_some h3)
          exact optOk_bind (optOk_of_pres (syncPres_move_v M N _) h3) fun s4 h4 =>
            optOk_bind (optOk_of_pres (syncPres_move_h M N _) h4) fun s5 h5 =>
            optOk_bind (optOk_of_pres (syncPres_move_v M N _) h5) fun s6 h6 =>
            optOk_bind (optOk_of_pres (syncPres_auto_change M N 'D') h6) fun s7 h7 =>
            optOk_of_pres (syncPres_solve2x1Loop M N (i + 1) fuel _) h7
      · intro s3 h3
        refine optOk_ite _ ?_ (optOk_some h3)
        exact optOk_bind (optOk_of_pres (syncPres_move_v M N _) h3) fun s4 h4 =>
          optOk_bind (optOk_of_pres (syncPres_move_h M N _) h4) fun s5 h5 =>
          optOk_bind (optOk_of_pres (syncPres_auto_change M N 'S') h5) fun s6 h6 =>
          optOk_of_pres (syncPres_auto_change M N 'D') h6

theorem syncPres_solve2x1Cols (M N fuel : Nat) :
    ∀ n i, SyncPres M N (solve2x1Cols M N fuel n i) := by
  intro n
  induction n with
  | zero =>
      intro i p₀ st st' hs h
      rw [solve2x1Cols] at h
      cases h
      exact hs
  | succ n ih =>
      intro i p₀ st st' hs h
      rw [solve2x1Cols] at h
      rcases Option.bind_eq_some.mp h with ⟨s1, h1, h2⟩
      exact ih (i + 1) p₀ s1 st' (syncPres_solve2x1Col M N fuel i p₀ st s1 hs h1) h2

theorem syncPres_solve_2x1 (M N fuel : Nat) : SyncPres M N (solve_2x1 M N fuel) :=
  fun p₀ st st' hs h => syncPres_solve2x1Cols M N fuel (N - 2) 0 p₀ st st' hs h

/-- Replay invariant at the orchestrator level: replaying the already-reported
segments followed by the pending `sol` vector reproduces the current board. -/
def SyncA (M N : Nat) (p₀ : List Int) (a : AutoState) : Prop :=
  applyMoves M N p₀ (a.emitted ++ a.sol) = some a.board

theorem syncA_liftSol {M N : Nat} {f : SolState → Option SolState}
    (hf : SyncPres M N f) {p₀ : List Int} {a a' : AutoState}
    (ha : SyncA M N p₀ a) (h : liftSol f a = some a') : SyncA M N p₀ a' := by
  unfold liftSol at h
  rcases Option.map_eq_some'.mp h with ⟨st, hst, hA⟩
  subst hA
  rw [SyncA, applyMoves_append] at ha
  rcases Option.bind_eq_some.mp ha with ⟨q, hq, hq2⟩
  have hmid : Sync M N q (a.board, a.sol) := hq2
  have hout := hf q (a.board, a.sol) st hmid hst
  show applyMoves M N p₀ (a.emitted ++ st.2) = some st.1
  rw [applyMoves_append, hq, Option.some_bind]
  exact hout

theorem syncA_report {M N : Nat} {p₀ : List Int} (printout : Bool) {a : AutoState}
    (ha : SyncA M N p₀ a) : SyncA M N p₀ (report printout a) := by
  show applyMoves M N p₀ ((a.emitted ++ a.sol) ++ []) = some a.board
  rw [List.append_nil]
  exact ha

theorem syncA_colsLoop (M N fuel i : Nat) :
    ∀ n j (p₀ : List Int) (a a' : AutoState), SyncA M N p₀ a →
      colsLoop M N fuel i n j a = some a' → SyncA M N p₀ a' := by
  intro n
  induction n with
  | zero =>
      intro j p₀ a a' ha h
      rw [colsLoop] at h
      cases h
      exact ha
  | succ n ih =>
      intro j p₀ a a' ha h
      rw [colsLoop] at h
      rcases Option.bind_eq_some.mp h with ⟨a1, h1, h2⟩
      exact ih (j + 1) p₀ a1 a'
        (syncA_liftSol (syncPres_placeLoop M N i j _ fuel) ha h1) h2

theorem syncA_rowPhase (M N : Nat) (printout : Bool) (fuel i : Nat)
    {p₀ : List Int} {a a' : AutoState} (ha : SyncA M N p₀ a)
    (h : rowPhase M N printout fuel i a = some a') : SyncA M N p₀ a' := by
  unfold rowPhase at h
  rcases Option.bind_eq_some.mp h with ⟨a1, h1, h⟩
  have g1 := syncA_colsLoop M N fuel i (N - 2) 0 p₀ a a1 ha h1
  rcases Option.bind_eq_some.mp h with ⟨a2, h2, h⟩
  have g2 := syncA_liftSol (syncPres_solve_1x2 M N i) g1 h2
  rcases Option.bind_eq_some.mp h with ⟨a3, h3, h⟩
  have g3 : SyncA M N p₀ a3 := by
    split at h3
    · exact syncA_liftSol (syncPres_appendMoves M N _) g2 h3
    · cases h3; exact g2
  cases h
  split
  · exact syncA_report printout g3
  · exact g3

theorem syncA_rowsLoop (M N : Nat) (printout : Bool) (fuel : Nat) :
    ∀ n i (p₀ : List Int) (a a' : AutoState), SyncA M N p₀ a →
      rowsLoop M N printout fuel n i a = some a' → SyncA M N p₀ a' := by
  intro n
  induction n with
  | zero =>
      intro i p₀ a a' ha h
      rw [rowsLoop] at h
      cases h
      exact ha
  | succ n ih =>
      intro i p₀ a a' ha h
      rw [rowsLoop] at h
      rcases Option.bind_eq_some.mp h with ⟨a1, h1, h2⟩
      exact ih (i + 1) p₀ a1 a' (syncA_rowPhase M N printout fuel i ha h1) h2

theorem syncA_last3Phase (M N fuel : Nat) {p₀ : List Int} {a a' : AutoState}
    (ha : SyncA M N p₀ a) (h : last3Phase M N fuel a = some a') : SyncA M N p₀ a' := by
  unfold last3Phase at h
  rcases Option.bind_eq_some.mp h with ⟨a1, h1, h⟩
  have g1 := syncA_colsLoop M N fuel (M - 3) (N - 2) 0 p₀ a a1 ha h1
  rcases Option.bind_eq_some.mp h with ⟨a2, h2, h⟩
  have g2 := syncA_liftSol (syncPres_placeLoop M N (M - 3) (N - 2) _ fuel) g1 h2
  dsimp only at h
  split at h
  · rcases Option.bind_eq_some.mp h with ⟨a3, h3, h⟩
    have g3 := syncA_liftSol (syncPres_move_h M N _) g2 h3
    rcases Option.bind_eq_some.mp h with ⟨a4, h4, h⟩
    have g4 := syncA_liftSol (syncPres_move_v M N _) g3 h4
    exact syncA_liftSol (syncPres_appendMoves M N _) g4 h
  · rcases Option.bind_eq_some.mp h with ⟨a3, h3, h⟩
    have g3 := syncA_liftSol (syncPres_placeLoop M N (M - 2) (N - 2) _ fuel) g2 h3
    rcases Option.bind_eq_some.mp h with ⟨a4, h4, h⟩
    have g4 := syncA_liftSol (syncPres_move_v M N _) g3 h4
    rcases Option.bind_eq_some.mp h with ⟨a5, h5, h⟩
    have g5 := syncA_liftSol (syncPres_move_h M N _) g4 h5
    rcases Option.bind_eq_some.mp h with ⟨a6, h6, h⟩
    have g6 := syncA_liftSol (syncPres_move_v M N _) g5 h6
    rcases Option.bind_eq_some.mp h with ⟨a7, h7, h⟩
    have g7 := syncA_liftSol (syncPres_auto_change M N 'A') g6 h7
    exact syncA_liftSol (syncPres_auto_change M N 'S') g7 h

/-- C6: if `autosolve` returns, replaying the move log it reports through
`change` (the spec's move-application function), starting from the input
board, reproduces exactly the final board it returns. -/
theorem autosolve_log_roundtrip (M N : Nat) (printout : Bool) (fuel : Nat)
    (p p' : List Int) (log : List Char) (step : Nat)
    (h : autosolve M N printout fuel p = some (p', log, step)) :
    applyMoves M N p log = some p' := by
  unfold autosolve at h
  rcases Option.bind_eq_some.mp h with ⟨a1, h1, h⟩
  have g0 : SyncA M N p ⟨p, [], [], 0⟩ := rfl
  have g1 : SyncA M N p a1 := syncA_rowsLoop M N printout fuel (M - 3) 0 p _ a1 g0 h1
  rcases Option.bind_eq_some.mp h with ⟨a2, h2, h⟩
  have g2 : SyncA M N p a2 := by
    split at h2
    · exact syncA_last3Phase M N fuel g1 h2
    · cases h2; exact g1
  rcases Option.bind_eq_some.mp h with ⟨a3, h3, h⟩
  have g3 := syncA_liftSol (syncPres_solve_2x1 M N fuel) g2 h3
  rcases Option.bind_eq_some.mp h with ⟨a4, h4, h⟩
  have g4 := syncA_liftSol (syncPres_move_h M N _) g3 h4
  rcases Option.bind_eq_some.mp h with ⟨a5, h5, h⟩
  have g5 := syncA_liftSol (syncPres_move_v M N _) g4 h5
  rcases Option.map_eq_some'.mp h with ⟨a6, h6, hfin⟩
  have g6 := syncA_liftSol (syncPres_endgameLoop M N fuel) g5 h6
  have grep := syncA_report printout g6
  have hb : (report printout a6).board = p' := congrArg (fun t => t.1) hfin
  have hl : (report printout a6).emitted = log :=
    congrArg (fun t => t.2.1) hfin
  rw [SyncA] at grep
  rw [show (report printout a6).sol = [] from rfl, List.append_nil, hb, hl] at grep
  exact grep

theorem autosolve_log_roundtrip_witness :
    autosolve 3 3 true 50 (solvedList 3 3) = some (solvedList 3 3, c7Log, 16) ∧
    applyMoves 3 3 (solvedList 3 3) c7Log = some (solvedList 3 3) :=
  ⟨autosolve_solved3x3_run,
   autosolve_log_roundtrip 3 3 true 50 (solvedList 3 3) (solvedList 3 3) c7Log 16
     autosolve_solved3x3_run⟩

/-- Cells 0..(M−1)·N−3: every cell of the board before the 2×2 block holds its
target value `index + 1`. -/
def blockPrefix (M N : Nat) : List Int :=
  List.map (fun k : Nat => (k : Int) + 1) (List.range ((M - 1) * N - 2))

/-- Cells (M−1)·N..M·N−3: the cells of the bottom row before the 2×2 block,
each holding its target value `index + 1`. -/
def blockMid (M N : Nat) : List Int :=
  List.map (fun k : Nat => (((M - 1) * N + k : Nat) : Int) + 1) (List.range (N - 2))

/-- A board in which every cell outside the bottom-right 2×2 block holds its
target value and the blank sits in the bottom-right corner; `x`, `y`, `z` are
the contents of cells (M−2,N−2), (M−2,N−1) and (M−1,N−2). -/
def blockBoard (M N : Nat) (x y z : Int) : List Int :=
  blockPrefix M N ++ x :: y :: (blockMid M N ++ z :: [-1])

theorem blockPrefix_length (M N : Nat) : (blockPrefix M N).length = (M - 1) * N - 2 := by
  simp [blockPrefix]

theorem blockMid_length (M N : Nat) : (blockMid M N).length = N - 2 := by
  simp [blockMid]

theorem blockPrefix_ne_blank (M N : Nat) : ∀ w ∈ blockPrefix M N, w ≠ -1 := by
  intro w hw
  simp only [blockPrefix, List.mem_map] at hw
  rcases hw with ⟨k, _, hk⟩
  omega

theorem blockMid_ne_blank (M N : Nat) : ∀ w ∈ blockMid M N, w ≠ -1 := by
  intro w hw
  simp only [blockMid, List.mem_map] at hw
  rcases hw with ⟨k, _, hk⟩
  omega

theorem find_blank_of_append (l t : List Int) (h : ∀ w ∈ l, w ≠ -1) :
    find (l ++ (-1) :: t) (-1) = l.length := by
  induction l with
  | nil => exact find_cons_self (-1) t
  | cons w l ih =>
      rw [List.cons_append, find_cons_ne w _ _ (h w (List.mem_cons_self w l)),
        ih fun v hv => h v (List.mem_cons_of_mem w hv), List.length_cons]

theorem mul_pred (M N : Nat) (h : 1 ≤ M) : M * N = (M - 1) * N + N := by
  calc M * N = ((M - 1) + 1) * N := by rw [Nat.sub_add_cancel h]
  _ = (M - 1) * N + N := by ring

theorem div_block_helper (b r q : Nat) (hb : 0 < b) (hr : r < b) : (r + q * b) / b = q := by
  rw [Nat.add_mul_div_right _ _ hb, Nat.div_eq_of_lt hr, Nat.zero_add]

theorem mod_block_helper (b r q : Nat) (hr : r < b) : (r + q * b) % b = r := by
  rw [Nat.add_mul_mod_self_right, Nat.mod_eq_of_lt hr]

/-- With the three block cells holding their own targets, `blockBoard` is the
canonical solved board. -/
theorem blockBoard_solved (M N : Nat) (hM : 2 ≤ M) (hN : 2 ≤ N) :
    blockBoard M N ((((M - 1) * N - 1 : Nat) : Int)) ((((M - 1) * N : Nat) : Int))
      (((M * N - 1 : Nat) : Int)) = solvedList M N := by
  have hMN : M * N = (M - 1) * N + N := mul_pred M N (by omega)
  have hK : 2 ≤ (M - 1) * N :=
    le_trans (by omega : 2 ≤ 1 * N) (Nat.mul_le_mul_right N (by omega))
  have e1 : M * N - 1 = ((M - 1) * N - 2 + 1 + 1) + (N - 2) + 1 := by omega
  rw [solvedList, e1, List.range_succ, List.map_append, List.range_add,
    List.map_append, List.range_succ, List.map_append, List.range_succ,
    List.map_append, List.map_map]
  rw [blockBoard, blockPrefix, blockMid]
  have hmid : List.map ((fun k : Nat => (k : Int) + 1) ∘ fun k => (M - 1) * N - 2 + 1 + 1 + k)
      (List.range (N - 2)) =
      List.map (fun k : Nat => (((M - 1) * N + k : Nat) : Int) + 1) (List.range (N - 2)) := by
    refine List.map_congr_left ?_
    intro a _
    simp only [Function.comp]
    omega
  rw [hmid]
  have hv1 : List.map (fun k : Nat => (k : Int) + 1) [(M - 1) * N - 2] =
      [(((M - 1) * N - 1 : Nat) : Int)] := by
    simp only [List.map_cons, List.map_nil]
    congr 1
    omega
  have hv2 : List.map (fun k : Nat => (k : Int) + 1) [(M - 1) * N - 2 + 1] =
      [(((M - 1) * N : Nat) : Int)] := by
    simp only [List.map_cons, List.map_nil]
    congr 1
    omega
  have hv3 : List.map (fun k : Nat => (k : Int) + 1) [(M - 1) * N - 2 + 1 + 1 + (N - 2)] =
      [((M * N - 1 : Nat) : Int)] := by
    simp only [List.map_cons, List.map_nil]
    congr 1
    omega
  rw [hv1, hv2, hv3]
  simp [List.append_assoc]
  omega

theorem blockL_length (M N : Nat) (hM : 2 ≤ M) (hN : 2 ≤ N) (x y : Int) :
    (blockPrefix M N ++ x :: y :: blockMid M N).length = M * N - 2 := by
  have hMN : M * N = (M - 1) * N + N := mul_pred M N (by omega)
  have hK : 2 ≤ (M - 1) * N :=
    le_trans (by omega : 2 ≤ 1 * N) (Nat.mul_le_mul_right N (by omega))
  simp only [List.length_append, List.length_cons, blockPrefix_length, blockMid_length]
  omega

theorem change_block_A (M N : Nat) (hM : 2 ≤ M) (hN : 2 ≤ N) (x y z : Int)
    (hx : x ≠ -1) (hy : y ≠ -1) (hz : z ≠ -1) :
    change M N (blockBoard M N x y z) 'A' =
      some (blockPrefix M N ++ x :: y :: (blockMid M N ++ (-1) :: [z])) := by
  have hMN : M * N = (M - 1) * N + N := mul_pred M N (by omega)
  have hK : 2 ≤ (M - 1) * N :=
    le_trans (by omega : 2 ≤ 1 * N) (Nat.mul_le_mul_right N (by omega))
  have lenL := blockL_length M N hM hN x y
  have hfind : find (blockBoard M N x y z) (-1) = M * N - 1 := by
    have hshape : blockBoard M N x y z =
        (blockPrefix M N ++ x :: y :: (blockMid M N ++ [z])) ++ (-1) :: [] := by
      simp [blockBoard]
    rw [hshape, find_blank_of_append]
    · simp only [List.length_append, List.length_cons, List.length_singleton,
        List.length_nil, blockPrefix_length, blockMid_length]
      omega
    · intro w hw
      simp only [List.mem_append, List.mem_cons] at hw
      rcases hw with h | h | h | h | h | h
      · exact blockPrefix_ne_blank M N w h
      · exact h ▸ hx
      · exact h ▸ hy
      · exact blockMid_ne_blank M N w h
      · exact h ▸ hz
      · exact absurd h (List.not_mem_nil w)
  unfold change
  dsimp only
  rw [hfind]
  rw [if_neg (by decide : ¬('A' : Char) = 'W'), if_neg (by decide : ¬('A' : Char) = 'S'),
    if_pos rfl]
  have hmod : (M * N - 1) % N = N - 1 := by
    rw [show M * N - 1 = (N - 1) + (M - 1) * N from by omega]
    exact mod_block_helper N (N - 1) (M - 1) (by omega)
  rw [hmod, if_pos (by omega : 0 < N - 1)]
  congr 1
  rw [show M * N - 1 - 1 = M * N - 2 from by omega]
  have hshape2 : blockBoard M N x y z =
      (blockPrefix M N ++ x :: y :: blockMid M N) ++ z :: [-1] := by
    simp [blockBoard]
  unfold swapCells
  have hgz : (blockBoard M N x y z).getD (M * N - 2) 0 = z := by
    rw [hshape2, ← lenL, getD_append_at]
  have hgb : (blockBoard M N x y z).getD (M * N - 1) 0 = -1 := by
    rw [hshape2, show M * N - 1 = (blockPrefix M N ++ x :: y :: blockMid M N).length + 1
      from by rw [lenL]; omega, getD_append_at_succ]
  rw [hgz, hgb]
  have hs1 : (blockBoard M N x y z).set (M * N - 1) z =
      (blockPrefix M N ++ x :: y :: blockMid M N) ++ z :: [z] := by
    rw [hshape2, show M * N - 1 = (blockPrefix M N ++ x :: y :: blockMid M N).length + 1
      from by rw [lenL]; omega, set_append_at_succ]
  rw [hs1, ← lenL, set_append_at]
  simp [List.append_assoc]

theorem change_block_W (M N : Nat) (hM : 2 ≤ M) (hN : 2 ≤ N) (x y z : Int)
    (hx : x ≠ -1) (hy : y ≠ -1) (hz : z ≠ -1) :
    change M N (blockPrefix M N ++ x :: y :: (blockMid M N ++ (-1) :: [z])) 'W' =
      some (blockPrefix M N ++ (-1) :: y :: (blockMid M N ++ x :: [z])) := by
  have hMN : M * N = (M - 1) * N + N := mul_pred M N (by omega)
  have hK : 2 ≤ (M - 1) * N :=
    le_trans (by omega : 2 ≤ 1 * N) (Nat.mul_le_mul_right N (by omega))
  have lenL := blockL_length M N hM hN x y
  have hshape : blockPrefix M N ++ x :: y :: (blockMid M N ++ (-1) :: [z]) =
      (blockPrefix M N ++ x :: y :: blockMid M N) ++ (-1) :: [z] := by
    simp [List.append_assoc]
  have hfind : find (blockPrefix M N ++ x :: y :: (blockMid M N ++ (-1) :: [z])) (-1)
      = M * N - 2 := by
    rw [hshape, find_blank_of_append, lenL]
    intro w hw
    simp only [List.mem_append, List.mem_cons] at hw
    rcases hw with h | h | h | h
    · exact blockPrefix_ne_blank M N w h
    · exact h ▸ hx
    · exact h ▸ hy
    · exact blockMid_ne_blank M N w h
  unfold change
  dsimp only
  rw [hfind]
  rw [if_pos rfl]
  have hdiv : (M * N - 2) / N = M - 1 := by
    rw [show M * N - 2 = (N - 2) + (M - 1) * N from by omega]
    exact div_block_helper N (N - 2) (M - 1) (by omega) (by omega)
  rw [hdiv, if_pos (by omega : 0 < M - 1)]
  congr 1
  rw [show M * N - 2 - N = (M - 1) * N - 2 from by omega]
  unfold swapCells
  have hgx : (blockPrefix M N ++ x :: y :: (blockMid M N ++ (-1) :: [z])).getD
      ((M - 1) * N - 2) 0 = x := by
    rw [← blockPrefix_length M N, getD_append_at]
  have hgb : (blockPrefix M N ++ x :: y :: (blockMid M N ++ (-1) :: [z])).getD
      (M * N - 2) 0 = -1 := by
    rw [hshape, ← lenL, getD_append_at]
  rw [hgx, hgb]
  have hs1 : (blockPrefix M N ++ x :: y :: (blockMid M N ++ (-1) :: [z])).set
      (M * N - 2) x = blockPrefix M N ++ x :: y :: (blockMid M N ++ x :: [z]) := by
    rw [hshape, ← lenL, set_append_at]
    simp [List.append_assoc]
  rw [hs1, ← blockPrefix_length M N, set_append_at]

theorem change_block_D (M N : Nat) (hM : 2 ≤ M) (hN : 2 ≤ N) (x y z : Int)
    (hx : x ≠ -1) (hy : y ≠ -1) (hz : z ≠ -1) :
    change M N (blockPrefix M N ++ (-1) :: y :: (blockMid M N ++ x :: [z])) 'D' =
      some (blockPrefix M N ++ y :: (-1) :: (blockMid M N ++ x :: [z])) := by
  have hMN : M * N = (M - 1) * N + N := mul_pred M N (by omega)
  have hMN2 : (M - 1) * N = (M - 2) * N + N := by
    have h := mul_pred (M - 1) N (by omega)
    simpa [show M - 1 - 1 = M - 2 from by omega] using h
  have hK : 2 ≤ (M - 1) * N :=
    le_trans (by omega : 2 ≤ 1 * N) (Nat.mul_le_mul_right N (by omega))
  have hfind : find (blockPrefix M N ++ (-1) :: y :: (blockMid M N ++ x :: [z])) (-1)
      = (M - 1) * N - 2 := by
    rw [find_blank_of_append _ _ (blockPrefix_ne_blank M N), blockPrefix_length]
  unfold change
  dsimp only
  rw [hfind]
  rw [if_neg (by decide : ¬('D' : Char) = 'W'), if_neg (by decide : ¬('D' : Char) = 'S'),
    if_neg (by decide : ¬('D' : Char) = 'A'), if_pos rfl]
  have hmod : ((M - 1) * N - 2) % N = N - 2 := by
    rw [show (M - 1) * N - 2 = (N - 2) + (M - 2) * N from by omega]
    exact mod_block_helper N (N - 2) (M - 2) (by omega)
  rw [hmod, if_pos (by omega : N - 2 < N - 1)]
  congr 1
  unfold swapCells
  have hgy : (blockPrefix M N ++ (-1) :: y :: (blockMid M N ++ x :: [z])).getD
      ((M - 1) * N - 2 + 1) 0 = y := by
    rw [← blockPrefix_length M N, getD_append_at_succ]
  have hgb : (blockPrefix M N ++ (-1) :: y :: (blockMid M N ++ x :: [z])).getD
      ((M - 1) * N - 2) 0 = -1 := by
    rw [← blockPrefix_length M N, getD_append_at]
  rw [hgy, hgb]
  rw [← blockPrefix_length M N, set_append_at, set_append_at_succ]

theorem change_block_S (M N : Nat) (hM : 2 ≤ M) (hN : 2 ≤ N) (x y z : Int)
    (hx : x ≠ -1) (hy : y ≠ -1) (hz : z ≠ -1) :
    change M N (blockPrefix M N ++ y :: (-1) :: (blockMid M N ++ x :: [z])) 'S' =
      some (blockBoard M N y z x) := by
  have hMN : M * N = (M - 1) * N + N := mul_pred M N (by omega)
  have hMN2 : (M - 1) * N = (M - 2) * N + N := by
    have h := mul_pred (M - 1) N (by omega)
    simpa [show M - 1 - 1 = M - 2 from by omega] using h
  have hK : 2 ≤ (M - 1) * N :=
    le_trans (by omega : 2 ≤ 1 * N) (Nat.mul_le_mul_right N (by omega))
  have hshape : blockPrefix M N ++ y :: (-1) :: (blockMid M N ++ x :: [z]) =
      (blockPrefix M N ++ [y]) ++ (-1) :: (blockMid M N ++ x :: [z]) := by
    simp [List.append_assoc]
  have hfind : find (blockPrefix M N ++ y :: (-1) :: (blockMid M N ++ x :: [z])) (-1)
      = (M - 1) * N - 1 := by
    rw [hshape, find_blank_of_append]
    · simp only [List.length_append, List.length_singleton, List.length_nil,
        blockPrefix_length]
      omega
    · intro w hw
      simp only [List.mem_append, List.mem_singleton] at hw
      rcases hw with h | h
      · exact blockPrefix_ne_blank M N w h
      · exact h ▸ hy
  unfold change
  dsimp only
  rw [hfind]
  rw [if_neg (by decide : ¬('S' : Char) = 'W'), if_pos rfl]
  have hdiv : ((M - 1) * N - 1) / N = M - 2 := by
    rw [show (M - 1) * N - 1 = (N - 1) + (M - 2) * N from by omega]
    exact div_block_helper N (N - 1) (M - 2) (by omega) (by omega)
  rw [hdiv, if_pos (by omega : M - 2 < M - 1)]
  congr 1
  rw [show (M - 1) * N - 1 + N = M * N - 1 from by omega]
  unfold swapCells
  have hshape2 : blockPrefix M N ++ y :: (-1) :: (blockMid M N ++ x :: [z]) =
      (blockPrefix M N ++ y :: (-1) :: (blockMid M N ++ [x])) ++ z :: [] := by
    simp [List.append_assoc]
  have lenL2 : (blockPrefix M N ++ y :: (-1) :: (blockMid M N ++ [x])).length
      = M * N - 1 := by
    simp only [List.length_append, List.length_cons, List.length_singleton,
      List.length_nil, blockPrefix_length, blockMid_length]
    omega
  have hgz : (blockPrefix M N ++ y :: (-1) :: (blockMid M N ++ x :: [z])).getD
      (M * N - 1) 0 = z := by
    rw [hshape2, ← lenL2, getD_append_at]
  have hgb : (blockPrefix M N ++ y :: (-1) :: (blockMid M N ++ x :: [z])).getD
      ((M - 1) * N - 1) 0 = -1 := by
    rw [show (M - 1) * N - 1 = (blockPrefix M N).length + 1
      from by rw [blockPrefix_length]; omega, getD_append_at_succ]
  rw [hgz, hgb]
  have hs1 : (blockPrefix M N ++ y :: (-1) :: (blockMid M N ++ x :: [z])).set
      ((M - 1) * N - 1) z = blockPrefix M N ++ y :: z :: (blockMid M N ++ x :: [z]) := by
    rw [show (M - 1) * N - 1 = (blockPrefix M N).length + 1
      from by rw [blockPrefix_length]; omega, set_append_at_succ]
  rw [hs1]
  have hshape3 : blockPrefix M N ++ y :: z :: (blockMid M N ++ x :: [z]) =
      (blockPrefix M N ++ y :: z :: (blockMid M N ++ [x])) ++ z :: [] := by
    simp [List.append_assoc]
  have lenL3 : (blockPrefix M N ++ y :: z :: (blockMid M N ++ [x])).length
      = M * N - 1 := by
    simp only [List.length_append, List.length_cons, List.length_singleton,
      List.length_nil, blockPrefix_length, blockMid_length]
    omega
  rw [hshape3, ← lenL3, set_append_at]
  simp [blockBoard, List.append_assoc]

theorem applyMoves_rotation (M N : Nat) (hM : 2 ≤ M) (hN : 2 ≤ N) (x y z : Int)
    (hx : x ≠ -1) (hy : y ≠ -1) (hz : z ≠ -1) :
    applyMoves M N (blockBoard M N x y z) ['A', 'W', 'D', 'S'] =
      some (blockBoard M N y z x) := by
  rw [show (['A', 'W', 'D', 'S'] : List Char) = 'A' :: 'W' :: 'D' :: 'S' :: [] from rfl]
  rw [applyMoves_cons, change_block_A M N hM hN x y z hx hy hz, Option.some_bind,
    applyMoves_cons, change_block_W M N hM hN x y z hx hy hz, Option.some_bind,
    applyMoves_cons, change_block_D M N hM hN x y z hx hy hz, Option.some_bind,
    applyMoves_cons, change_block_S M N hM hN x y z hx hy hz, Option.some_bind,
    applyMoves_nil]

theorem appendMoves_rotation (M N : Nat) (hM : 2 ≤ M) (hN : 2 ≤ N) (x y z : Int)
    (hx : x ≠ -1) (hy : y ≠ -1) (hz : z ≠ -1) (sol : List Char) :
    appendMoves M N ['A', 'W', 'D', 'S'] (blockBoard M N x y z, sol) =
      some (blockBoard M N y z x, sol ++ ['A', 'W', 'D', 'S']) := by
  unfold appendMoves
  rw [show (blockBoard M N x y z, sol).1 = blockBoard M N x y z from rfl,
    applyMoves_rotation M N hM hN x y z hx hy hz, Option.map_some']

theorem crossCount_single_zero (xs : List Int) (w : Int)
    (h : ∀ x ∈ xs, invPair x w = 0) : crossCount xs [w] = 0 := by
  induction xs with
  | nil => exact crossCount_nil_left [w]
  | cons x xs ih =>
      rw [crossCount_cons_left, invPairs_cons, invPairs_nil,
        h x (List.mem_cons_self x xs), ih fun a ha => h a (List.mem_cons_of_mem x ha)]

theorem invCount_sorted_map (n : Nat) :
    invCount (List.map (fun k : Nat => (k : Int) + 1) (List.range n)) = 0 := by
  induction n with
  | zero => simp [List.range_zero, invCount_nil]
  | succ n ih =>
      rw [List.range_succ, List.map_append, invCount_append, ih]
      simp only [List.map_cons, List.map_nil]
      have hcz : crossCount (List.map (fun k : Nat => (k : Int) + 1) (List.range n))
          [(n : Int) + 1] = 0 := by
        refine crossCount_single_zero _ _ ?_
        intro a ha
        simp only [List.mem_map, List.mem_range] at ha
        rcases ha with ⟨k, hk, rfl⟩
        unfold invPair
        rw [if_neg]
        rintro ⟨-, -, hlt⟩
        omega
      rw [hcz, invCount_cons, invPairs_nil, invCount_nil]

theorem invCount_solvedList (M N : Nat) : invCount (solvedList M N) = 0 := by
  rw [solvedList, invCount_append, invCount_sorted_map]
  have hcz : crossCount (List.map (fun k : Nat => (k : Int) + 1) (List.range (M * N - 1)))
      [-1] = 0 := by
    refine crossCount_single_zero _ _ ?_
    intro a _
    unfold invPair
    rw [if_neg]
    rintro ⟨-, hb, -⟩
    exact hb rfl
  rw [hcz, invCount_cons, invPairs_nil, invCount_nil]

theorem find_blank_solvedList (M N : Nat) : find (solvedList M N) (-1) = M * N - 1 := by
  rw [solvedList, show ((-1 : Int) :: [] : List Int) = [-1] from rfl]
  rw [show ([-1] : List Int) = (-1) :: [] from rfl]
  rw [find_blank_of_append _ _ (mem_range_map_ne_blank M N), List.length_map,
    List.length_range]

theorem find_blank_blockBoard (M N : Nat) (hM : 2 ≤ M) (hN : 2 ≤ N) (x y z : Int)
    (hx : x ≠ -1) (hy : y ≠ -1) (hz : z ≠ -1) :
    find (blockBoard M N x y z) (-1) = M * N - 1 := by
  have hMN : M * N = (M - 1) * N + N := mul_pred M N (by omega)
  have hK : 2 ≤ (M - 1) * N :=
    le_trans (by omega : 2 ≤ 1 * N) (Nat.mul_le_mul_right N (by omega))
  have hshape : blockBoard M N x y z =
      (blockPrefix M N ++ x :: y :: (blockMid M N ++ [z])) ++ (-1) :: [] := by
    simp [blockBoard]
  rw [hshape, find_blank_of_append]
  · simp only [List.length_append, List.length_cons, List.length_singleton,
      List.length_nil, blockPrefix_length, blockMid_length]
    omega
  · intro w hw
    simp only [List.mem_append, List.mem_cons] at hw
    rcases hw with h | h | h | h | h | h
    · exact blockPrefix_ne_blank M N w h
    · exact h ▸ hx
    · exact h ▸ hy
    · exact blockMid_ne_blank M N w h
    · exact h ▸ hz
    · exact absurd h (List.not_mem_nil w)

theorem can_solve_blockBoard_odd (M N : Nat) (hM : 2 ≤ M) (hN : 2 ≤ N)
    (x y z : Int) (hx : x ≠ -1) (hy : y ≠ -1) (hz : z ≠ -1)
    (hodd : invCount (blockBoard M N x y z) % 2 = 1) :
    can_solve M N (blockBoard M N x y z) = false := by
  have hMN : M * N = (M - 1) * N + N := mul_pred M N (by omega)
  rw [can_solve_eq_spec_aux]
  unfold is_solvable_spec blankRow
  rw [find_blank_blockBoard M N hM hN x y z hx hy hz]
  have hdiv : (M * N - 1) / N = M - 1 := by
    rw [show M * N - 1 = (N - 1) + (M - 1) * N from by omega]
    exact div_block_helper N (N - 1) (M - 1) (by omega) (by omega)
  rw [hdiv, Nat.sub_self, Nat.add_zero]
  split_ifs
  · simp [hodd]
  · simp [hodd]

theorem endgameCond_blockBoard (M N : Nat) (hM : 2 ≤ M) (hN : 2 ≤ N) (x y z : Int) :
    endgameCond M N (blockBoard M N x y z) =
      (!(z == ((M * N - 1 : Nat) : Int)) || !(y == (((M - 1) * N : Nat) : Int)) ||
        !(x == (((M - 1) * N - 1 : Nat) : Int))) := by
  have hMN : M * N = (M - 1) * N + N := mul_pred M N (by omega)
  have hK : 2 ≤ (M - 1) * N :=
    le_trans (by omega : 2 ≤ 1 * N) (Nat.mul_le_mul_right N (by omega))
  have lenL := blockL_length M N hM hN x y
  have hshape2 : blockBoard M N x y z =
      (blockPrefix M N ++ x :: y :: blockMid M N) ++ z :: [-1] := by
    simp [blockBoard]
  have hgz : (blockBoard M N x y z).getD (M * N - 2) 0 = z := by
    rw [hshape2, ← lenL, getD_append_at]
  have hgy : (blockBoard M N x y z).getD ((M - 1) * N - 1) 0 = y := by
    rw [blockBoard, show (M - 1) * N - 1 = (blockPrefix M N).length + 1
      from by rw [blockPrefix_length]; omega, getD_append_at_succ]
  have hgx : (blockBoard M N x y z).getD ((M - 1) * N - 2) 0 = x := by
    rw [blockBoard, ← blockPrefix_length M N, getD_append_at]
  unfold endgameCond
  rw [hgz, hgy, hgx]

theorem not_mem_blockMid_of (M N : Nat) (v : Int)
    (h : ∀ k : Nat, k < N - 2 → v ≠ (((M - 1) * N + k : Nat) : Int) + 1) :
    v ∉ blockMid M N := by
  intro hmem
  simp only [blockMid, List.mem_map, List.mem_range] at hmem
  rcases hmem with ⟨k, hk, hkv⟩
  exact h k hk hkv.symm

theorem blockBoard_perm_vals (M N : Nat) (hM : 2 ≤ M) (hN : 2 ≤ N) (x y z : Int)
    (hperm : PermInv M N (blockBoard M N x y z)) :
    List.Perm [x, y, z]
      [(((M - 1) * N - 1 : Nat) : Int), (((M - 1) * N : Nat) : Int),
        ((M * N - 1 : Nat) : Int)] := by
  have hp : List.Perm (blockBoard M N x y z)
      (blockBoard M N (((M - 1) * N - 1 : Nat) : Int) (((M - 1) * N : Nat) : Int)
        ((M * N - 1 : Nat) : Int)) := by
    rw [blockBoard_solved M N hM hN]
    exact hperm
  unfold blockBoard at hp
  have h2 := (List.perm_append_left_iff (blockPrefix M N)).mp hp
  have e : ∀ a b c : Int,
      List.Perm (a :: b :: (blockMid M N ++ c :: [-1])) (blockMid M N ++ [a, b, c, -1]) := by
    intro a b c
    refine ((List.perm_append_comm.cons b).cons a).trans ?_
    exact @List.perm_append_comm _ [a, b, c, -1] (blockMid M N)
  have h3 := ((e x y z).symm.trans h2).trans
    (e (((M - 1) * N - 1 : Nat) : Int) (((M - 1) * N : Nat) : Int) ((M * N - 1 : Nat) : Int))
  have h4 := (List.perm_append_left_iff (blockMid M N)).mp h3
  have h5 : List.Perm ((-1 : Int) :: [x, y, z])
      ((-1 : Int) :: [(((M - 1) * N - 1 : Nat) : Int), (((M - 1) * N : Nat) : Int),
        ((M * N - 1 : Nat) : Int)]) := by
    refine (@List.perm_append_comm _ [(-1 : Int)] [x, y, z]).trans ?_
    refine h4.trans ?_
    exact @List.perm_append_comm _
      [(((M - 1) * N - 1 : Nat) : Int), (((M - 1) * N : Nat) : Int),
        ((M * N - 1 : Nat) : Int)] [(-1 : Int)]
  exact h5.cons_inv

theorem invCount_blockBoard_swap_xy (M N : Nat) (hM : 2 ≤ M) (hN : 2 ≤ N)
    (ha : (((M - 1) * N - 1 : Nat) : Int) ≠ -1) (hb : (((M - 1) * N : Nat) : Int) ≠ -1)
    (hab : (((M - 1) * N - 1 : Nat) : Int) ≠ (((M - 1) * N : Nat) : Int)) :
    invCount (blockBoard M N (((M - 1) * N : Nat) : Int) (((M - 1) * N - 1 : Nat) : Int)
      ((M * N - 1 : Nat) : Int)) % 2 = 1 := by
  have hflip := invCount_swap_flip (blockPrefix M N) []
    (blockMid M N ++ ((M * N - 1 : Nat) : Int) :: [-1])
    (((M - 1) * N - 1 : Nat) : Int) (((M - 1) * N : Nat) : Int) ha hb hab
    (List.not_mem_nil _) (List.not_mem_nil _)
  simp only [List.nil_append] at hflip
  have hid : invCount (blockPrefix M N ++ (((M - 1) * N - 1 : Nat) : Int) ::
      (((M - 1) * N : Nat) : Int) :: (blockMid M N ++ ((M * N - 1 : Nat) : Int) :: [-1]))
      = 0 := by
    rw [show blockPrefix M N ++ (((M - 1) * N - 1 : Nat) : Int) ::
      (((M - 1) * N : Nat) : Int) :: (blockMid M N ++ ((M * N - 1 : Nat) : Int) :: [-1]) =
      blockBoard M N (((M - 1) * N - 1 : Nat) : Int) (((M - 1) * N : Nat) : Int)
        ((M * N - 1 : Nat) : Int) from rfl, blockBoard_solved M N hM hN]
    exact invCount_solvedList M N
  rw [hid] at hflip
  rw [show blockBoard M N (((M - 1) * N : Nat) : Int) (((M - 1) * N - 1 : Nat) : Int)
    ((M * N - 1 : Nat) : Int) = blockPrefix M N ++ (((M - 1) * N : Nat) : Int) ::
    (((M - 1) * N - 1 : Nat) : Int) :: (blockMid M N ++ ((M * N - 1 : Nat) : Int) :: [-1])
    from rfl]
  omega

theorem invCount_blockBoard_swap_yz (M N : Nat) (hM : 2 ≤ M) (hN : 2 ≤ N) :
    invCount (blockBoard M N (((M - 1) * N - 1 : Nat) : Int) ((M * N - 1 : Nat) : Int)
      (((M - 1) * N : Nat) : Int)) % 2 = 1 := by
  have hMN : M * N = (M - 1) * N + N := mul_pred M N (by omega)
  have hK : 2 ≤ (M - 1) * N :=
    le_trans (by omega : 2 ≤ 1 * N) (Nat.mul_le_mul_right N (by omega))
  have hm2 : (((M - 1) * N : Nat) : Int) ∉ blockMid M N :=
    not_mem_blockMid_of M N _ (fun k hk => by omega)
  have hm3 : ((M * N - 1 : Nat) : Int) ∉ blockMid M N :=
    not_mem_blockMid_of M N _ (fun k hk => by omega)
  have hflip := invCount_swap_flip (blockPrefix M N ++ [(((M - 1) * N - 1 : Nat) : Int)])
    (blockMid M N) [-1] (((M - 1) * N : Nat) : Int) ((M * N - 1 : Nat) : Int)
    (by omega) (by omega) (by omega) hm2 hm3
  simp only [List.append_assoc, List.singleton_append] at hflip
  have hid : invCount (blockPrefix M N ++ (((M - 1) * N - 1 : Nat) : Int) ::
      (((M - 1) * N : Nat) : Int) :: (blockMid M N ++ ((M * N - 1 : Nat) : Int) :: [-1]))
      = 0 := by
    rw [show blockPrefix M N ++ (((M - 1) * N - 1 : Nat) : Int) ::
      (((M - 1) * N : Nat) : Int) :: (blockMid M N ++ ((M * N - 1 : Nat) : Int) :: [-1]) =
      blockBoard M N (((M - 1) * N - 1 : Nat) : Int) (((M - 1) * N : Nat) : Int)
        ((M * N - 1 : Nat) : Int) from rfl, blockBoard_solved M N hM hN]
    exact invCount_solvedList M N
  rw [hid] at hflip
  rw [show blockBoard M N (((M - 1) * N - 1 : Nat) : Int) ((M * N - 1 : Nat) : Int)
    (((M - 1) * N : Nat) : Int) = blockPrefix M N ++ (((M - 1) * N - 1 : Nat) : Int) ::
    ((M * N - 1 : Nat) : Int) :: (blockMid M N ++ (((M - 1) * N : Nat) : Int) :: [-1])
    from rfl]
  omega

theorem invCount_blockBoard_swap_xz (M N : Nat) (hM : 2 ≤ M) (hN : 2 ≤ N) :
    invCount (blockBoard M N ((M * N - 1 : Nat) : Int) (((M - 1) * N : Nat) : Int)
      (((M - 1) * N - 1 : Nat) : Int)) % 2 = 1 := by
  have hMN : M * N = (M - 1) * N + N := mul_pred M N (by omega)
  have hK : 2 ≤ (M - 1) * N :=
    le_trans (by omega : 2 ≤ 1 * N) (Nat.mul_le_mul_right N (by omega))
  have hm1 : (((M - 1) * N - 1 : Nat) : Int) ∉ (((M - 1) * N : Nat) : Int) :: blockMid M N := by
    intro hmem
    rcases List.mem_cons.mp hmem with h | h
    · omega
    · exact not_mem_blockMid_of M N _ (fun k hk => by omega) h
  have hm3 : ((M * N - 1 : Nat) : Int) ∉ (((M - 1) * N : Nat) : Int) :: blockMid M N := by
    intro hmem
    rcases List.mem_cons.mp hmem with h | h
    · omega
    · exact not_mem_blockMid_of M N _ (fun k hk => by omega) h
  have hflip := invCount_swap_flip (blockPrefix M N)
    ((((M - 1) * N : Nat) : Int) :: blockMid M N) [-1]
    (((M - 1) * N - 1 : Nat) : Int) ((M * N - 1 : Nat) : Int)
    (by omega) (by omega) (by omega) hm1 hm3
  simp only [List.cons_append] at hflip
  have hid : invCount (blockPrefix M N ++ (((M - 1) * N - 1 : Nat) : Int) ::
      (((M - 1) * N : Nat) : Int) :: (blockMid M N ++ ((M * N - 1 : Nat) : Int) :: [-1]))
      = 0 := by
    rw [show blockPrefix M N ++ (((M - 1) * N - 1 : Nat) : Int) ::
      (((M - 1) * N : Nat) : Int) :: (blockMid M N ++ ((M * N - 1 : Nat) : Int) :: [-1]) =
      blockBoard M N (((M - 1) * N - 1 : Nat) : Int) (((M - 1) * N : Nat) : Int)
        ((M * N - 1 : Nat) : Int) from rfl, blockBoard_solved M N hM hN]
    exact invCount_solvedList M N
  rw [hid] at hflip
  rw [show blockBoard M N ((M * N - 1 : Nat) : Int) (((M - 1) * N : Nat) : Int)
    (((M - 1) * N - 1 : Nat) : Int) = blockPrefix M N ++ ((M * N - 1 : Nat) : Int) ::
    (((M - 1) * N : Nat) : Int) :: (blockMid M N ++ (((M - 1) * N - 1 : Nat) : Int) :: [-1])
    from rfl]
  omega

theorem endgameLoop_succ (M N f : Nat) (st : SolState) :
    endgameLoop M N (f + 1) st =
      if endgameCond M N st.1 then
        (appendMoves M N ['A', 'W', 'D', 'S'] st).bind (endgameLoop M N f)
      else some st := rfl

theorem endgameLoop_zero (M N : Nat) (st : SolState) :
    endgameLoop M N 0 st = if endgameCond M N st.1 then none else some st := rfl

/-- C8: in the terminal 2×2 phase, on any board whose cells outside the
bottom-right 2×2 block already hold their target values and whose blank is in
the bottom-right corner (`blockBoard`), if the board is a permutation of the
solved board and `can_solve` accepts it, the A,W,D,S rotation loop exits within
2 macro applications (fuel 2 suffices), the emitted log is at most 8 moves, and
the final board is exactly the canonical solved board — so the three block
cells hold their target values. -/
theorem endgame_block_two_rotations (M N : Nat) (hM : 2 ≤ M) (hN : 2 ≤ N)
    (x y z : Int) (hperm : PermInv M N (blockBoard M N x y z))
    (hsolv : can_solve M N (blockBoard M N x y z) = true) (sol : List Char) :
    ∃ log : List Char,
      endgameLoop M N 2 (blockBoard M N x y z, sol) =
        some (solvedList M N, sol ++ log) ∧ log.length ≤ 8 := by
  have hMN : M * N = (M - 1) * N + N := mul_pred M N (by omega)
  have hK : 2 ≤ (M - 1) * N :=
    le_trans (by omega : 2 ≤ 1 * N) (Nat.mul_le_mul_right N (by omega))
  have hv1 : (((M - 1) * N - 1 : Nat) : Int) ≠ -1 := by omega
  have hv2 : (((M - 1) * N : Nat) : Int) ≠ -1 := by omega
  have hv3 : ((M * N - 1 : Nat) : Int) ≠ -1 := by omega
  have h12 : (((M - 1) * N - 1 : Nat) : Int) ≠ (((M - 1) * N : Nat) : Int) := by omega
  have h13 : (((M - 1) * N - 1 : Nat) : Int) ≠ ((M * N - 1 : Nat) : Int) := by omega
  have h23 : (((M - 1) * N : Nat) : Int) ≠ ((M * N - 1 : Nat) : Int) := by omega
  have hxyz := blockBoard_perm_vals M N hM hN x y z hperm
  have hndv : ([(((M - 1) * N - 1 : Nat) : Int), (((M - 1) * N : Nat) : Int),
      ((M * N - 1 : Nat) : Int)] : List Int).Nodup := by
    refine List.nodup_cons.mpr ⟨?_, List.nodup_cons.mpr ⟨?_, List.nodup_singleton _⟩⟩
    · intro hm
      rcases List.mem_cons.mp hm with h | h
      · exact h12 h
      · rcases List.mem_cons.mp h with h | h
        · exact h13 h
        · exact List.not_mem_nil _ h
    · intro hm
      rcases List.mem_cons.mp hm with h | h
      · exact h23 h
      · exact List.not_mem_nil _ h
  have hnd := hxyz.nodup_iff.mpr hndv
  have hxy : x ≠ y := fun h =>
    (List.nodup_cons.mp hnd).1 (by rw [h]; exact List.mem_cons_self y [z])
  have hxz : x ≠ z := fun h =>
    (List.nodup_cons.mp hnd).1
      (by rw [h]; exact List.mem_cons_of_mem y (List.mem_cons_self z []))
  have hyz : y ≠ z := fun h =>
    (List.nodup_cons.mp (List.nodup_cons.mp hnd).2).1
      (by rw [h]; exact List.mem_cons_self z [])
  have hcond_id : endgameCond M N (blockBoard M N (((M - 1) * N - 1 : Nat) : Int)
      (((M - 1) * N : Nat) : Int) ((M * N - 1 : Nat) : Int)) = false := by
    rw [endgameCond_blockBoard M N hM hN]
    simp
  have hx3 := (hxyz.mem_iff).mp (show x ∈ [x, y, z] by simp)
  have hy3 := (hxyz.mem_iff).mp (show y ∈ [x, y, z] by simp)
  have hz3 := (hxyz.mem_iff).mp (show z ∈ [x, y, z] by simp)
  simp only [List.mem_cons, List.not_mem_nil, or_false] at hx3 hy3 hz3
  rcases hx3 with hx | hx | hx <;> rcases hy3 with hy | hy | hy <;>
    rcases hz3 with hz | hz | hz
  all_goals try (exact absurd (hx.trans hy.symm) hxy)
  all_goals try (exact absurd (hx.trans hz.symm) hxz)
  all_goals try (exact absurd (hy.trans hz.symm) hyz)
  · -- (v1, v2, v3): the board is already solved, the loop exits at once
    subst hx; subst hy; subst hz
    refine ⟨[], ?_, by simp⟩
    refine (endgameLoop_succ M N 1 _).trans ?_
    dsimp only
    rw [hcond_id]
    rw [if_neg (by decide : ¬(false = true)), blockBoard_solved M N hM hN,
      List.append_nil]
  · -- (v1, v3, v2): an odd transposition, excluded by solvability
    subst hx; subst hy; subst hz
    have hodd := invCount_blockBoard_swap_yz M N hM hN
    have hfalse := can_solve_blockBoard_odd M N hM hN _ _ _ hv1 hv3 hv2 hodd
    rw [hfalse] at hsolv
    exact Bool.noConfusion hsolv
  · -- (v2, v1, v3): an odd transposition, excluded by solvability
    subst hx; subst hy; subst hz
    have hodd := invCount_blockBoard_swap_xy M N hM hN hv1 hv2 h12
    have hfalse := can_solve_blockBoard_odd M N hM hN _ _ _ hv2 hv1 hv3 hodd
    rw [hfalse] at hsolv
    exact Bool.noConfusion hsolv
  · -- (v2, v3, v1): two rotations reach the solved board
    subst hx; subst hy; subst hz
    refine ⟨['A', 'W', 'D', 'S', 'A', 'W', 'D', 'S'], ?_, by simp⟩
    have hcond1 : endgameCond M N (blockBoard M N (((M - 1) * N : Nat) : Int)
        ((M * N - 1 : Nat) : Int) (((M - 1) * N - 1 : Nat) : Int)) = true := by
      rw [endgameCond_blockBoard M N hM hN]
      rw [beq_eq_false_iff_ne.mpr h13]
      simp
    refine (endgameLoop_succ M N 1 _).trans ?_
    dsimp only
    rw [hcond1, if_pos rfl]
    rw [appendMoves_rotation M N hM hN _ _ _ hv2 hv3 hv1 sol, Option.some_bind]
    refine (endgameLoop_succ M N 0 _).trans ?_
    dsimp only
    have hcond2 : endgameCond M N (blockBoard M N ((M * N - 1 : Nat) : Int)
        (((M - 1) * N - 1 : Nat) : Int) (((M - 1) * N : Nat) : Int)) = true := by
      rw [endgameCond_blockBoard M N hM hN]
      rw [beq_eq_false_iff_ne.mpr h23]
      simp
    rw [hcond2, if_pos rfl]
    rw [appendMoves_rotation M N hM hN _ _ _ hv3 hv1 hv2 _, Option.some_bind]
    refine (endgameLoop_zero M N _).trans ?_
    dsimp only
    rw [hcond_id]
    rw [if_neg (by decide : ¬(false = true)), blockBoard_solved M N hM hN,
      List.append_assoc]
    rfl
  · -- (v3, v1, v2): one rotation reaches the solved board
    subst hx; subst hy; subst hz
    refine ⟨['A', 'W', 'D', 'S'], ?_, by simp⟩
    have hcond1 : endgameCond M N (blockBoard M N ((M * N - 1 : Nat) : Int)
        (((M - 1) * N - 1 : Nat) : Int) (((M - 1) * N : Nat) : Int)) = true := by
      rw [endgameCond_blockBoard M N hM hN]
      rw [beq_eq_false_iff_ne.mpr h23]
      simp
    refine (endgameLoop_succ M N 1 _).trans ?_
    dsimp only
    rw [hcond1, if_pos rfl]
    rw [appendMoves_rotation M N hM hN _ _ _ hv3 hv1 hv2 sol, Option.some_bind]
    refine (endgameLoop_succ M N 0 _).trans ?_
    dsimp only
    rw [hcond_id]
    rw [if_neg (by decide : ¬(false = true)), blockBoard_solved M N hM hN]
  · -- (v3, v2, v1): an odd transposition, excluded by solvability
    subst hx; subst hy; subst hz
    have hodd := invCount_blockBoard_swap_xz M N hM hN
    have hfalse := can_solve_blockBoard_odd M N hM hN _ _ _ hv3 hv2 hv1 hodd
    rw [hfalse] at hsolv
    exact Bool.noConfusion hsolv

theorem endgame_block_two_rotations_witness :
    (2 ≤ 3 ∧ PermInv 3 3 (blockBoard 3 3 8 5 6) ∧
      can_solve 3 3 (blockBoard 3 3 8 5 6) = true) ∧
    ∃ log : List Char,
      endgameLoop 3 3 2 (blockBoard 3 3 8 5 6, []) =
        some (solvedList 3 3, [] ++ log) ∧ log.length ≤ 8 :=
  ⟨⟨by decide, by decide, by decide⟩,
    endgame_block_two_rotations 3 3 (by decide) (by decide) 8 5 6 (by decide) (by decide) []⟩

example : solvedList 2 2 = [1, 2, 3, -1] := by decide

example : can_solve 2 3 [2, 4, -1, 1, 5, 3] = true := by decide

example : can_solve 3 3 [2, 1, 3, 4, 5, 6, 7, 8, -1] = false := by decide

example : change 2 2 [1, 2, 3, -1] 'W' = some [1, -1, 3, 2] := by decide

example : swapFirstPair [-1, 2, 3, 1] = [-1, 3, 2, 1] := by decide

end Puzzle
